import Mathlib

/-!
voxl-aruco-detector: a shallow embedding of `config.hpp`, `nv12_to_gray.hpp`
and `aruco_publisher.cpp`.

Modelling conventions.

* A `double` or `float` object holds a value of `FP`: a rational number, an
  infinity or NaN.  Every operation that rounds in C++ rounds here, to nearest
  with ties to even, at 53 bits (`double`) or 24 bits (`float`), with gradual
  underflow and overflow to infinity.  The two zeros are one value and NaN has
  no payload.
* `int`, `int32_t`, `int64_t`, `ssize_t` values are `Int`; byte counts and
  image dimensions are `Nat`; a byte is a `UInt8`.  The one `int` product of
  the program, `width*height`, is checked for overflow.
* `std::string` is `String`, read as its UTF-8 bytes where the program copies
  it into a `char` array; `std::vector<T>` is `List T`;
  `std::unordered_map<int,double>` is an association list searched from the
  front.
* Calls into OpenCV, libmodal-pipe and libc are fields of the record `Env`:
  they are total functions of their arguments and the program is a function
  of them.  What the program does to the outside world is a list of `Event`s.
* A pass of the frame loop whose C++ behaviour is an exception or undefined
  (a read past the end of the frame buffer, an overflowing `int` product) ends
  as `LoopCtl.fault`, and the model records nothing after it.
-/

namespace ArucoDetector

/-! ## Floating-point values -/

/-- The value of a `double` or `float` object. -/
inductive FP where
  | fin (q : ℚ)
  | inf (neg : Bool)
  | nan
  deriving DecidableEq, Repr

instance (n : Nat) : OfNat FP n := ⟨FP.fin (n : ℚ)⟩

/-- The power of two `2^k` for an integer exponent. -/
def pow2 (k : Int) : ℚ :=
  if 0 ≤ k then (2 : ℚ) ^ k.toNat else 1 / (2 : ℚ) ^ (-k).toNat

/-- The number of binary digits of `n`, computed with `fuel` halvings. -/
def bit_length_aux : Nat → Nat → Nat
  | 0, _ => 0
  | fuel + 1, n => if n = 0 then 0 else bit_length_aux fuel (n / 2) + 1

/-- The number of binary digits of `n`. -/
def bit_length (n : Nat) : Nat := bit_length_aux n n

/-- The binary exponent of the positive rational `a/b`: the integer `e` with
`2^e ≤ a/b < 2^(e+1)`. -/
def ilog2 (a b : Nat) : Int :=
  let e0 : Int := (bit_length a : Int) - (bit_length b : Int)
  if (a : ℚ) / (b : ℚ) < pow2 e0 then e0 - 1 else e0

/-- The integer nearest to a non-negative rational, ties to the even one. -/
def round_half_even (q : ℚ) : Int :=
  let f := q.floor
  let r := q - (f : ℚ)
  if r < 1 / 2 then f
  else if 1 / 2 < r then f + 1
  else if f % 2 = 0 then f else f + 1

/-- The positive rational `a/b` rounded to `prec` significant bits, with the
spacing of the exponent `emin` below `2^emin` (gradual underflow); `none` when
the rounded value reaches `2^(emax+1)` (overflow). -/
def round_mag (prec : Nat) (emin emax : Int) (a b : Nat) : Option ℚ :=
  let e := max (ilog2 a b) emin
  let ulp := pow2 (e - ((prec : Int) - 1))
  let v := (round_half_even ((a : ℚ) / (b : ℚ) / ulp) : ℚ) * ulp
  if v < pow2 (emax + 1) then some v else none

/-- A rational rounded to the binary floating-point format of `prec`
significant bits and exponent range `emin..emax`. -/
def round_to (prec : Nat) (emin emax : Int) (q : ℚ) : FP :=
  if q = 0 then FP.fin 0
  else
    match round_mag prec emin emax q.num.natAbs q.den with
    | some v => FP.fin (if q < 0 then -v else v)
    | none => FP.inf (decide (q < 0))

/-- The `float` (IEEE binary32) nearest to a rational. -/
def to_float (q : ℚ) : FP := round_to 24 (-126) 127 q

/-- The `double` (IEEE binary64) nearest to a rational. -/
def to_double (q : ℚ) : FP := round_to 53 (-1022) 1023 q

/-- The conversion `(float)v` of a `double`. -/
def cast_float (v : FP) : FP :=
  match v with
  | FP.fin q => to_float q
  | FP.inf s => FP.inf s
  | FP.nan => FP.nan

/-- The negation `-v`. -/
def dneg (v : FP) : FP :=
  match v with
  | FP.fin q => FP.fin (-q)
  | FP.inf s => FP.inf (!s)
  | FP.nan => FP.nan

/-- The product `a * b` of two `double`s. -/
def dmul (a b : FP) : FP :=
  match a, b with
  | FP.nan, _ => FP.nan
  | _, FP.nan => FP.nan
  | FP.inf s, FP.inf t => FP.inf (xor s t)
  | FP.inf s, FP.fin q => if q = 0 then FP.nan else FP.inf (xor s (decide (q < 0)))
  | FP.fin p, FP.inf t => if p = 0 then FP.nan else FP.inf (xor (decide (p < 0)) t)
  | FP.fin p, FP.fin q => to_double (p * q)

/-- The conversion `(double)n` of an `int`, which is exact: an `int` has 32
bits. -/
def int_to_double (n : Int) : FP := FP.fin (n : ℚ)

/-- The quotient `1.0 / n` of the `double` 1 by a non-zero `int`. -/
def one_over (n : Int) : FP := to_double (1 / (n : ℚ))

/-! ## Strings as bytes -/

/-- The bytes of a `std::string`. -/
def bytes_of (s : String) : List UInt8 := s.data.flatMap String.utf8EncodeChar

/-- The call `s.c_str()` read as a C string: the bytes before the first
NUL. -/
def c_str (s : String) : List UInt8 := (bytes_of s).takeWhile (fun b => b ≠ 0)

/-- The call `snprintf(buf, size, "%s", s.c_str())` on a zeroed buffer: the C
string left in `buf`, at most `size - 1` bytes of `s`. -/
def snprintf_s (size : Nat) (s : String) : List UInt8 := (c_str s).take (size - 1)

/-! ## `config.hpp` -/

/-- The type `std::unordered_map<int,double>`: a list of key/value pairs. -/
abbrev UnorderedMap := List (Int × FP)

/-- The call `m.find(id)`: the value bound to `id`, or `none` for `m.end()`. -/
def UnorderedMap.find (m : UnorderedMap) (id : Int) : Option FP :=
  match m with
  | [] => none
  | (k, v) :: rest => if k = id then some v else UnorderedMap.find rest id

/-- The keys of the map. -/
def UnorderedMap.keys (m : UnorderedMap) : List Int := m.map Prod.fst

/-- The statement `m[id] = val`: overwrite the binding of `id`, or add one. -/
def UnorderedMap.assign (m : UnorderedMap) (id : Int) (val : FP) : UnorderedMap :=
  match m with
  | [] => [(id, val)]
  | (k, v) :: rest =>
    if k = id then (k, val) :: rest else (k, v) :: UnorderedMap.assign rest id val

/-- The struct `ArucoConfig` (config.hpp, lines 6-18). -/
structure ArucoConfig where
  camera_pipe : String
  out_pipe : String
  aruco_dict : String
  image_format : String
  intrinsics : String
  camera_name : String
  default_size_m : FP
  id_size_map : UnorderedMap
  downscale : Int
  min_marker_perimeter_rate : FP
  corner_refinement : Bool
  deriving DecidableEq, Repr

/-- A default-constructed `ArucoConfig`: the member initialisers of lines
13-17, the literals `0.16` and `0.02` being the nearest `double`s. -/
def ArucoConfig.default : ArucoConfig :=
  { camera_pipe := "", out_pipe := "", aruco_dict := "", image_format := "",
    intrinsics := "", camera_name := "",
    default_size_m := to_double (16 / 100),
    id_size_map := [],
    downscale := 1,
    min_marker_perimeter_rate := to_double (2 / 100),
    corner_refinement := true }

/-- The content of an opened YAML `cv::FileStorage`, one field per key that
`load_config_yaml` reads; `none` is an empty `cv::FileNode`. -/
structure YamlDoc where
  camera_pipe : Option String
  out_pipe : Option String
  aruco_dict : Option String
  image_format : Option String
  intrinsics : Option String
  camera_name : Option String
  default_size_m : Option FP
  downscale : Option Int
  min_marker_perimeter_rate : Option FP
  corner_refinement : Option Bool
  id_size_map : Option (List (String × FP))
  deriving DecidableEq, Repr

/-- The loop of config.hpp lines 38-42 over the children of `id_size_map`:
`std::stoi` of the child name (a `none` is the exception it throws), then
`cfg.id_size_map[id] = val`. -/
def load_id_size_map (stoi : String → Option Int) :
    List (String × FP) → UnorderedMap → Option UnorderedMap
  | [], m => some m
  | (name, val) :: rest, m =>
    match stoi name with
    | none => none
    | some id => load_id_size_map stoi rest (m.assign id val)

/-- The function `load_config_yaml` (config.hpp, lines 20-45).  The argument
`fs` is `none` when `fs.isOpened()` is false.  The result is `none` when
`std::stoi` throws, and otherwise the returned `bool` with the value left in
`cfg`. -/
def load_config_yaml (stoi : String → Option Int) (fs : Option YamlDoc)
    (cfg : ArucoConfig) : Option (Bool × ArucoConfig) :=
  match fs with
  | none => some (false, cfg)
  | some doc =>
    let cfg1 : ArucoConfig :=
      { cfg with
        camera_pipe := doc.camera_pipe.getD "",
        out_pipe := doc.out_pipe.getD "",
        aruco_dict := doc.aruco_dict.getD "",
        image_format := doc.image_format.getD "",
        intrinsics := doc.intrinsics.getD "",
        camera_name := doc.camera_name.getD "",
        default_size_m := doc.default_size_m.getD cfg.default_size_m,
        downscale := doc.downscale.getD cfg.downscale,
        min_marker_perimeter_rate :=
          doc.min_marker_perimeter_rate.getD cfg.min_marker_perimeter_rate,
        corner_refinement := doc.corner_refinement.getD cfg.corner_refinement }
    match doc.id_size_map with
    | none => some (true, cfg1)
    | some entries =>
      match load_id_size_map stoi entries cfg1.id_size_map with
      | none => none
      | some m => some (true, { cfg1 with id_size_map := m })

/-- The function `size_for_id` (config.hpp, lines 47-50). -/
def size_for_id (cfg : ArucoConfig) (id : Int) : FP :=
  match cfg.id_size_map.find id with
  | some v => v
  | none => cfg.default_size_m

/-! ## `aruco_publisher.cpp`: `dict_from_name` -/

/-- The values of `cv::aruco::PREDEFINED_DICTIONARY_NAME` that the program
names. -/
inductive PREDEFINED_DICTIONARY_NAME where
  | DICT_4X4_50
  | DICT_4X4_100
  | DICT_5X5_50
  | DICT_5X5_100
  | DICT_6X6_50
  | DICT_6X6_100
  deriving DecidableEq, Repr

open PREDEFINED_DICTIONARY_NAME

/-- The static table `map` of `dict_from_name` (lines 15-19). -/
def dict_name_table : List (String × PREDEFINED_DICTIONARY_NAME) :=
  [("DICT_4X4_50", DICT_4X4_50), ("DICT_4X4_100", DICT_4X4_100),
   ("DICT_5X5_50", DICT_5X5_50), ("DICT_5X5_100", DICT_5X5_100),
   ("DICT_6X6_50", DICT_6X6_50), ("DICT_6X6_100", DICT_6X6_100)]

/-- The function `dict_from_name` (lines 13-22).  The result is the name handed
to `cv::aruco::getPredefinedDictionary`, which identifies the dictionary. -/
def dict_from_name (name : String) : PREDEFINED_DICTIONARY_NAME :=
  match dict_name_table.lookup name with
  | none => DICT_4X4_50
  | some d => d

/-! ## `nv12_to_gray.hpp` -/

/-- The function `nv12_y_to_gray` (nv12_to_gray.hpp, lines 8-12) on the bytes
that `nv12` points to: the value left in `out_gray`, the first `width*height`
bytes (the Y plane).  The result is `none` where C++ defines none: the `int`
product `width*height` overflows, it is negative (`resize` throws), or it
exceeds the bytes of the buffer (`memcpy` reads past its end). -/
def nv12_y_to_gray (nv12 : List UInt8) (width height : Int) : Option (List UInt8) :=
  if 0 ≤ width * height ∧ width * height < 2 ^ 31 ∧
      (width * height).toNat ≤ nv12.length then
    some (nv12.take (width * height).toNat)
  else none

/-! ## `aruco_publisher.cpp`: data -/

/-- The type `cv::Point2f`: two `float`s. -/
structure Point2f where
  x : FP
  y : FP
  deriving DecidableEq, Repr

/-- The type `cv::Point3f`: three `float`s. -/
structure Point3f where
  x : FP
  y : FP
  z : FP
  deriving DecidableEq, Repr

/-- The type `cv::Vec3d`: three `double`s. -/
structure Vec3d where
  v0 : FP
  v1 : FP
  v2 : FP
  deriving DecidableEq, Repr

/-- A `cv::Mat` of `double`s, row by row. -/
abbrev Mat := List (List FP)

/-- The call `m.empty()`: the matrix has no element. -/
def mat_empty (m : Mat) : Bool := m.all (fun row => row.isEmpty)

/-- The call `m.at<double>(r, c)`. -/
def mat_at (m : Mat) (r c : Nat) : FP := (m.getD r []).getD c (FP.fin 0)

/-- A single-channel 8-bit `cv::Mat`: `rows` by `cols`, row-major samples. -/
structure Image where
  rows : Nat
  cols : Nat
  data : List UInt8
  deriving DecidableEq, Repr

/-- The fields of `image_metadata_t` that `main` reads. -/
structure image_metadata_t where
  width : Nat
  height : Nat
  size_bytes : Nat
  timestamp_ns : Int
  deriving DecidableEq, Repr

/-- The fields of `tag_detection_t` that `main` writes; every other field keeps
the zero of `tag_detection_t det = {}`.  The `char` arrays `name` and `cam` are
given by the C string they hold; `size_m`, `T_tag_wrt_cam` and `R_tag_to_cam`
are `float`s. -/
structure tag_detection_t where
  id : Int
  size_m : FP
  timestamp_ns : Int
  name : List UInt8
  cam : List UInt8
  T_tag_wrt_cam : List FP
  R_tag_to_cam : List (List FP)
  deriving DecidableEq, Repr

/-- The two values of `cv::aruco::CornerRefineMethod` that `main` names. -/
inductive CornerRefineMethod where
  | CORNER_REFINE_NONE
  | CORNER_REFINE_SUBPIX
  deriving DecidableEq, Repr

/-- The fields of `cv::aruco::DetectorParameters` that `main` sets; the others
keep the defaults of `DetectorParameters::create()`. -/
structure DetectorParameters where
  minMarkerPerimeterRate : FP
  cornerRefinementMethod : CornerRefineMethod
  deriving DecidableEq, Repr

/-- What one pass of the frame loop reads from the image pipe: the value the
first `pipe_client_read` returns and the metadata it stored, then the value the
second returns and the bytes it stored at the start of `imgbuf`. -/
structure FrameRead where
  meta_ret : Int
  meta : image_metadata_t
  payload_ret : Int
  imgbuf : List UInt8
  deriving DecidableEq, Repr

/-- The library and system calls of `main`, as functions of their arguments. -/
structure Env where
  /-- `cv::FileStorage fs(path, READ | FORMAT_YAML)`: `none` when not opened. -/
  open_yaml : String → Option YamlDoc
  /-- `std::stoi`: `none` when it throws. -/
  stoi : String → Option Int
  /-- The matrices `camera_matrix` and `distortion_coefficients` read from the
  intrinsics file of the given path. -/
  read_intrinsics : String → Mat × Mat
  /-- The return value of `pipe_client_open_path` for a pipe path (a C
  string). -/
  pipe_client_open_path : List UInt8 → Int
  /-- The return value of `pipe_server_create` for a pipe path (a C string). -/
  pipe_server_create : List UInt8 → Int
  /-- The constant `sizeof(image_metadata_t)`. -/
  sizeof_meta : Int
  /-- The constant `sizeof(det.name)`. -/
  sizeof_name : Nat
  /-- The constant `sizeof(det.cam)`. -/
  sizeof_cam : Nat
  /-- `cv::resize(src, dst, cv::Size(), fx, fy, cv::INTER_AREA)`: the value of
  `dst`. -/
  resize : Image → FP → FP → Image
  /-- `cv::aruco::detectMarkers(image, dict, corners, ids, params)`: the values
  of `corners` and `ids`. -/
  detectMarkers : Image → PREDEFINED_DICTIONARY_NAME → DetectorParameters →
    List (List Point2f) × List Int
  /-- `cv::solvePnP(obj, c, K, D, rvec, tvec, false, SOLVEPNP_IPPE_SQUARE)` on
  zero-initialised `rvec`, `tvec`: the returned `bool`, then the values of `rvec`
  and `tvec` after the call. -/
  solvePnP : List Point3f → List Point2f → Mat → Mat → Bool × Vec3d × Vec3d
  /-- `cv::Rodrigues(rvec, R33)`: the value of `R33`. -/
  Rodrigues : Vec3d → Mat

/-- What `main` does to the outside world, in program order. -/
inductive Event where
  | stderr (msg : List UInt8)
  | usleep (usec : Nat)
  | resize_call (src : Image) (fx fy : FP)
  | detect_call (image : Image) (dict : PREDEFINED_DICTIONARY_NAME)
      (params : DetectorParameters)
  | solve_call (obj : List Point3f) (c : List Point2f) (K D : Mat)
  | write (det : tag_detection_t)
  deriving DecidableEq, Repr

/-- The Detection records written to the output pipe, in order. -/
def published (evs : List Event) : List tag_detection_t :=
  evs.filterMap (fun e => match e with
    | Event.write det => some det
    | _ => none)

/-- The image corners handed to the pose solver, in order. -/
def solver_corners (evs : List Event) : List (List Point2f) :=
  evs.filterMap (fun e => match e with
    | Event.solve_call _ c _ _ => some c
    | _ => none)

/-- The object points handed to the pose solver, in order. -/
def solver_objects (evs : List Event) : List (List Point3f) :=
  evs.filterMap (fun e => match e with
    | Event.solve_call obj _ _ _ => some obj
    | _ => none)

/-- The images handed to the marker detector, each with the corner refinement
method the detector is to apply to it. -/
def detector_images (evs : List Event) : List (Image × CornerRefineMethod) :=
  evs.filterMap (fun e => match e with
    | Event.detect_call image _ params => some (image, params.cornerRefinementMethod)
    | _ => none)

/-! ## `aruco_publisher.cpp`: `main` -/

/-- Line 74-75 of `main`: the vector `imgbuf` after the second read, of
`meta.size_bytes` bytes, zero where the read stored nothing. -/
def frame_buffer (r : FrameRead) : List UInt8 :=
  (r.imgbuf ++ List.replicate r.meta.size_bytes 0).take r.meta.size_bytes

/-- How lines 79-90 of `main` end: with the gray image, on the branch that
reports an unsupported `image_format`, or with no defined behaviour. -/
inductive Gray where
  | image (gray : Image)
  | unsupported
  | fault
  deriving DecidableEq, Repr

/-- Lines 79-90 of `main`.  The `clone()` of a `cv::Mat` header of
`height` x `width` bytes over a buffer reads `height*width` bytes of it; where
the buffer is shorter the behaviour is undefined, and so it is where
`nv12_y_to_gray` has no defined result. -/
def to_gray (cfg : ArucoConfig) (r : FrameRead) : Gray :=
  if cfg.image_format = "gray8" then
    if r.meta.height * r.meta.width ≤ (frame_buffer r).length then
      Gray.image { rows := r.meta.height, cols := r.meta.width,
                   data := (frame_buffer r).take (r.meta.height * r.meta.width) }
    else Gray.fault
  else if cfg.image_format = "nv12" then
    match nv12_y_to_gray (frame_buffer r) (r.meta.width : Int) (r.meta.height : Int) with
    | none => Gray.fault
    | some y =>
      if r.meta.height * r.meta.width ≤ y.length then
        Gray.image { rows := r.meta.height, cols := r.meta.width,
                     data := y.take (r.meta.height * r.meta.width) }
      else Gray.fault
  else Gray.unsupported

/-- Lines 94-98 of `main`: the value of `scale`. -/
def scale_of (cfg : ArucoConfig) : FP :=
  if cfg.downscale > 1 then int_to_double cfg.downscale else FP.fin 1

/-- Lines 93-98 of `main`: the value of `proc`. -/
def proc_of (x : Env) (cfg : ArucoConfig) (gray : Image) : Image :=
  if cfg.downscale > 1 then
    x.resize gray (one_over cfg.downscale) (one_over cfg.downscale)
  else gray

/-- Line 111 of `main`, `p.x *= scale; p.y *= scale;`: the `float` coordinate
is widened to `double`, multiplied by `scale` in `double`, and the product
converted to `float`. -/
def rescale_point (scale : FP) (p : Point2f) : Point2f :=
  { x := cast_float (dmul p.x scale), y := cast_float (dmul p.y scale) }

/-- Lines 109-112 of `main`: the corners `c` handed to the solver. -/
def rescale_corners (scale : FP) (corners : List Point2f) : List Point2f :=
  if scale ≠ FP.fin 1 then corners.map (rescale_point scale) else corners

/-- Lines 115-118 of `main`: the object points `obj` of a marker of side
`size_m`.  The `double`s `-s`, `s` and the `int` 0 are converted to the
`float` coordinates of a `cv::Point3f`. -/
def object_points (size_m : FP) : List Point3f :=
  let s := dmul size_m (FP.fin (1 / 2))
  [{ x := cast_float (dneg s), y := cast_float s, z := FP.fin 0 },
   { x := cast_float s, y := cast_float s, z := FP.fin 0 },
   { x := cast_float s, y := cast_float (dneg s), z := FP.fin 0 },
   { x := cast_float (dneg s), y := cast_float (dneg s), z := FP.fin 0 }]

/-- Lines 126-136 of `main`: the record `det` of a marker. -/
def make_detection (x : Env) (cfg : ArucoConfig) (m : image_metadata_t)
    (id : Int) (size_m : FP) (tvec : Vec3d) (R33 : Mat) : tag_detection_t :=
  { id := id,
    size_m := cast_float size_m,
    timestamp_ns := m.timestamp_ns,
    name := snprintf_s x.sizeof_name "default_name",
    cam := snprintf_s x.sizeof_cam cfg.camera_name,
    T_tag_wrt_cam := [cast_float tvec.v0, cast_float tvec.v1, cast_float tvec.v2],
    R_tag_to_cam :=
      (List.range 3).map (fun r =>
        (List.range 3).map (fun cc => cast_float (mat_at R33 r cc))) }

/-- The body of the loop of lines 106-139 for the index `i`: the record written
for `ids[i]`.  The `bool` that `solvePnP` returns is not read. -/
def marker_detection (x : Env) (cfg : ArucoConfig) (K D : Mat)
    (m : image_metadata_t) (scale : FP)
    (corners : List (List Point2f)) (ids : List Int) (i : Nat) : tag_detection_t :=
  let id := ids.getD i 0
  let c := rescale_corners scale (corners.getD i [])
  let size_m := size_for_id cfg id
  let obj := object_points size_m
  let sol := x.solvePnP obj c K D
  let R33 := x.Rodrigues sol.2.1
  make_detection x cfg m id size_m sol.2.2 R33

/-- The body of the loop of lines 106-139 for the index `i`: its events. -/
def marker_events (x : Env) (cfg : ArucoConfig) (K D : Mat)
    (m : image_metadata_t) (scale : FP)
    (corners : List (List Point2f)) (ids : List Int) (i : Nat) : List Event :=
  [Event.solve_call (object_points (size_for_id cfg (ids.getD i 0)))
      (rescale_corners scale (corners.getD i [])) K D,
   Event.write (marker_detection x cfg K D m scale corners ids i)]

/-- How one pass of the `while(true)` body ends: `next` when it reaches the
next pass (by `continue` or by falling off the end of the body), `leave` when
it leaves the loop, `fault` when its behaviour is not defined. -/
inductive LoopCtl where
  | next
  | leave
  | fault
  deriving DecidableEq, Repr

/-- One pass of the body of the frame loop (lines 69-139). -/
def frame_iteration (x : Env) (cfg : ArucoConfig) (K D : Mat)
    (dict : PREDEFINED_DICTIONARY_NAME) (params : DetectorParameters)
    (r : FrameRead) : LoopCtl × List Event :=
  if r.meta_ret ≠ x.sizeof_meta then (LoopCtl.next, [Event.usleep 1000])
  else if r.payload_ret ≠ (r.meta.size_bytes : Int) then (LoopCtl.next, [])
  else
    match to_gray cfg r with
    | Gray.fault => (LoopCtl.fault, [])
    | Gray.unsupported =>
      (LoopCtl.next,
        [Event.stderr (bytes_of "Unsupported image_format: " ++ c_str cfg.image_format ++
          bytes_of "\n")])
    | Gray.image gray =>
      let proc := proc_of x cfg gray
      let scale := scale_of cfg
      let resized : List Event :=
        if cfg.downscale > 1 then
          [Event.resize_call gray (one_over cfg.downscale) (one_over cfg.downscale)]
        else []
      let found := x.detectMarkers proc dict params
      (LoopCtl.next,
        resized ++ [Event.detect_call proc dict params] ++
          (List.range found.2.length).flatMap
            (marker_events x cfg K D r.meta scale found.1 found.2))

/-- The frame loop of lines 68-140 run over the passes whose reads are given:
how the last pass run ended, and the events so far.  Nothing follows a pass
that does not reach the next one. -/
def frame_loop (x : Env) (cfg : ArucoConfig) (K D : Mat)
    (dict : PREDEFINED_DICTIONARY_NAME) (params : DetectorParameters) :
    List FrameRead → LoopCtl × List Event
  | [] => (LoopCtl.next, [])
  | r :: rest =>
    match frame_iteration x cfg K D dict params r with
    | (LoopCtl.next, evs) =>
      ((frame_loop x cfg K D dict params rest).1,
        evs ++ (frame_loop x cfg K D dict params rest).2)
    | (ctl, evs) => (ctl, evs)

/-- Lines 62-65 of `main`: the detector parameters. -/
def detector_params (cfg : ArucoConfig) : DetectorParameters :=
  { minMarkerPerimeterRate := cfg.min_marker_perimeter_rate,
    cornerRefinementMethod :=
      if cfg.corner_refinement then CornerRefineMethod.CORNER_REFINE_SUBPIX
      else CornerRefineMethod.CORNER_REFINE_NONE }

/-- Where a run of `main` stands: `exit_code` is the value `main` returned
(`none` while it has not returned), `aborted` says an exception or undefined
behaviour ended the run, `entered_loop` says the frame loop was reached,
`events` is what it did. -/
structure MainResult where
  exit_code : Option Int
  aborted : Bool
  entered_loop : Bool
  events : List Event
  deriving DecidableEq, Repr

/-- Line 26 of `main`: the path of the configuration file. -/
def cfg_path_of (argv : List String) : String :=
  if argv.length ≥ 2 then argv.getD 1 "" else "/etc/modalai/voxl-aruco-detector.conf.yaml"

/-- The function `main` (lines 24-145) on the command line `argv`, run until the
frame loop has made the passes whose reads are given. -/
def main (x : Env) (argv : List String) (reads : List FrameRead) : MainResult :=
  let cfg_path := cfg_path_of argv
  match load_config_yaml x.stoi (x.open_yaml cfg_path) ArucoConfig.default with
  | none => { exit_code := none, aborted := true, entered_loop := false, events := [] }
  | some (false, _) =>
    { exit_code := some 1, aborted := false, entered_loop := false,
      events := [Event.stderr (bytes_of "Failed to load config: " ++ c_str cfg_path ++
        bytes_of "\n")] }
  | some (true, cfg) =>
    let KD := x.read_intrinsics cfg.intrinsics
    if mat_empty KD.1 || mat_empty KD.2 then
      { exit_code := some 1, aborted := false, entered_loop := false,
        events := [Event.stderr (bytes_of "intrinsics not found: " ++ c_str cfg.intrinsics ++
          bytes_of "\n")] }
    else if x.pipe_client_open_path (c_str cfg.camera_pipe) ≠ 0 then
      { exit_code := some 1, aborted := false, entered_loop := false,
        events := [Event.stderr (bytes_of "failed to open image pipe: " ++
          c_str cfg.camera_pipe ++ bytes_of "\n")] }
    else if x.pipe_server_create (c_str cfg.out_pipe) ≠ 0 then
      { exit_code := some 1, aborted := false, entered_loop := false,
        events := [Event.stderr (bytes_of "failed to create out pipe: " ++
          c_str cfg.out_pipe ++ bytes_of "\n")] }
    else
      { exit_code := none,
        aborted := decide ((frame_loop x cfg KD.1 KD.2 (dict_from_name cfg.aruco_dict)
                    (detector_params cfg) reads).1 = LoopCtl.fault),
        entered_loop := true,
        events := (frame_loop x cfg KD.1 KD.2 (dict_from_name cfg.aruco_dict)
                    (detector_params cfg) reads).2 }

/-! ## PlanarPoseSolver, from the specification

The repository hands the pose solve to `cv::solvePnP`, whose code is not part
of it.  The selection step that the specification (section 4.4) prescribes is
modelled here over exact rationals. -/

/-- A point of object space with rational coordinates. -/
structure Point3q where
  x : ℚ
  y : ℚ
  z : ℚ
  deriving DecidableEq, Repr

/-- The rational a finite value holds, and 0 for an infinity or NaN. -/
def fp_val (v : FP) : ℚ :=
  match v with
  | FP.fin q => q
  | _ => 0

/-- Three points on one line: twice the signed area of the triangle is zero. -/
def collinear3 (a b c : Point2f) : Bool :=
  (fp_val b.x - fp_val a.x) * (fp_val c.y - fp_val a.y) -
    (fp_val b.y - fp_val a.y) * (fp_val c.x - fp_val a.x) = 0

/-- Some three of the corners of a quad are on one line (or there are not four
corners). -/
def degenerate_quad (c : List Point2f) : Bool :=
  match c with
  | [p0, p1, p2, p3] =>
    collinear3 p0 p1 p2 || collinear3 p0 p1 p3 || collinear3 p0 p2 p3 || collinear3 p1 p2 p3
  | _ => true

/-- The `float` nearest to one tenth, `0.1f`. -/
def tenth_f : FP := FP.fin (13421773 / 2 ^ 27)

/-- A sample configuration file. -/
def demo_doc : YamlDoc :=
  { camera_pipe := some "/run/mpa/tracking", out_pipe := some "/run/mpa/aruco",
    aruco_dict := some "DICT_4X4_50", image_format := some "gray8",
    intrinsics := some "/data/cam.yml", camera_name := some "tracking",
    default_size_m := none, downscale := some 2,
    min_marker_perimeter_rate := none, corner_refinement := none,
    id_size_map := some [("7", FP.fin (1 / 4))] }

/-- A sample camera matrix. -/
def demo_K : Mat := [[100, 0, 1], [0, 100, 1], [0, 0, 1]]

/-- A sample vector of distortion coefficients. -/
def demo_D : Mat := [[0, 0, 0, 0, 0]]

/-- A camera name of 70 characters. -/
def long_camera_name : String :=
  "tracking_front_left_stereo_camera_of_the_second_survey_drone_unit_0001"

/-- A sample environment: a down-sampler that keeps the first sample of a 2x2
frame; a detector that finds, with the dictionary `DICT_5X5_50`, one marker
(id 1, a corner at x = 0.1f) and with any other two markers (id 7 with corners
on one line, id 3 with a proper square); a solver that reports failure on a
degenerate quad, leaving `rvec` and `tvec` at zero. -/
def demo_env : Env :=
  { open_yaml := fun path =>
      if path = "/etc/aruco.yaml" then some demo_doc
      else if path = "/etc/nocal.yaml" then
        some { demo_doc with intrinsics := some "/data/none.yml" }
      else if path = "/etc/longname.yaml" then
        some { demo_doc with camera_name := some long_camera_name }
      else if path = "/etc/scale3.yaml" then
        some { demo_doc with downscale := some 3, aruco_dict := some "DICT_5X5_50" }
      else none,
    stoi := fun s => if s = "7" then some 7 else none,
    read_intrinsics := fun path =>
      if path = "/data/cam.yml" then (demo_K, demo_D) else ([], []),
    pipe_client_open_path := fun _ => 0,
    pipe_server_create := fun _ => 0,
    sizeof_meta := 48,
    sizeof_name := 64,
    sizeof_cam := 64,
    resize := fun img _ _ => { rows := 1, cols := 1, data := img.data.take 1 },
    detectMarkers := fun _ dict _ =>
      if dict = DICT_5X5_50 then
        ([[{ x := tenth_f, y := 0 }, { x := 1, y := 0 }, { x := 1, y := 1 }, { x := 0, y := 1 }]],
         [1])
      else
        ([[{ x := 0, y := 0 }, { x := 1, y := 1 }, { x := 2, y := 2 }, { x := 3, y := 3 }],
          [{ x := 0, y := 0 }, { x := 1, y := 0 }, { x := 1, y := 1 }, { x := 0, y := 1 }]],
         [7, 3]),
    solvePnP := fun _ c _ _ =>
      if degenerate_quad c then
        (false, { v0 := 0, v1 := 0, v2 := 0 }, { v0 := 0, v1 := 0, v2 := 0 })
      else (true, { v0 := 0, v1 := 0, v2 := 0 }, { v0 := 0, v1 := 0, v2 := 1 }),
    Rodrigues := fun _ => [[1, 0, 0], [0, 1, 0], [0, 0, 1]] }

/-- A sample frame: a complete read of a 2x2 gray image. -/
def demo_read : FrameRead :=
  { meta_ret := 48,
    meta := { width := 2, height := 2, size_bytes := 4, timestamp_ns := 1000 },
    payload_ret := 4,
    imgbuf := [10, 20, 30, 40] }

/-- The gray image of the sample frame. -/
def demo_gray : Image := { rows := 2, cols := 2, data := [10, 20, 30, 40] }

/-- The configuration that `load_config_yaml` reads from `demo_doc`: downscale
2, gray8 frames, one size override, for id 7. -/
def demo_cfg : ArucoConfig :=
  { camera_pipe := "/run/mpa/tracking", out_pipe := "/run/mpa/aruco",
    aruco_dict := "DICT_4X4_50", image_format := "gray8",
    intrinsics := "/data/cam.yml", camera_name := "tracking",
    default_size_m := to_double (16 / 100),
    id_size_map := [(7, FP.fin (1 / 4))],
    downscale := 2,
    min_marker_perimeter_rate := to_double (2 / 100),
    corner_refinement := true }

/-- The sample configuration with the camera name of 70 characters. -/
def long_name_cfg : ArucoConfig :=
  { demo_cfg with camera_name := long_camera_name }

/-- The sample configuration with downscale 3 and the dictionary
`DICT_5X5_50`. -/
def scale3_cfg : ArucoConfig :=
  { demo_cfg with downscale := 3, aruco_dict := "DICT_5X5_50" }

/-- A sample read whose metadata read came back short. -/
def short_read : FrameRead := { demo_read with meta_ret := 12 }

/-- A sample read whose payload read came back short. -/
def short_payload : FrameRead := { demo_read with payload_ret := 3 }

/-- The rational coordinates of an object point, when all three are finite. -/
def finite_point (p : Point3f) : Option Point3q :=
  match p.x, p.y, p.z with
  | FP.fin a, FP.fin b, FP.fin c => some { x := a, y := b, z := c }
  | _, _, _ => none

/-- The rational coordinates of a list of object points, when all are
finite. -/
def finite_points : List Point3f → Option (List Point3q)
  | [] => some []
  | p :: ps =>
    match finite_point p, finite_points ps with
    | some q, some qs => some (q :: qs)
    | _, _ => none

/-- The squared Euclidean distance of two object points. -/
def dist_sq (p q : Point3q) : ℚ :=
  (p.x - q.x) ^ 2 + (p.y - q.y) ^ 2 + (p.z - q.z) ^ 2

/-- The centroid of a list of object points. -/
def centroid (ps : List Point3q) : Point3q :=
  { x := (ps.map (fun p => p.x)).sum / ps.length,
    y := (ps.map (fun p => p.y)).sum / ps.length,
    z := (ps.map (fun p => p.z)).sum / ps.length }

/-- Each point of a list paired with its cyclic successor. -/
def cyclic_pairs (ps : List Point3q) : List (Point3q × Point3q) :=
  ps.zip (ps.tail ++ ps.take 1)

/-- The square of half-side `f` in the plane z = 0, centred at the origin, in
the order top-left, top-right, bottom-right, bottom-left. -/
def square_corners (f : ℚ) : List Point3q :=
  [{ x := -f, y := f, z := 0 }, { x := f, y := f, z := 0 },
   { x := f, y := -f, z := 0 }, { x := -f, y := -f, z := 0 }]

/-- The three ways a frame cannot be used: a short metadata read, a short
payload read, or an `image_format` that is neither `gray8` nor `nv12`. -/
def frame_unusable (x : Env) (cfg : ArucoConfig) (r : FrameRead) : Prop :=
  r.meta_ret ≠ x.sizeof_meta ∨ r.payload_ret ≠ (r.meta.size_bytes : Int) ∨
    (cfg.image_format ≠ "gray8" ∧ cfg.image_format ≠ "nv12")

instance (x : Env) (cfg : ArucoConfig) (r : FrameRead) :
    Decidable (frame_unusable x cfg r) := by
  unfold frame_unusable
  infer_instance

/-! # Theorems -/

/-- The sample frames and configurations evaluate as the comments say. -/
theorem demo_checks :
    to_float (16 / 100) = FP.fin (5368709 / 2 ^ 25) ∧
    to_double (16 / 100) = FP.fin (5764607523034235 / 2 ^ 55) ∧
    to_float (1 / 10) = tenth_f ∧
    cast_float (dmul tenth_f (int_to_double 3)) = FP.fin (5033165 / 2 ^ 24) ∧
    to_gray demo_cfg demo_read = Gray.image demo_gray ∧
    load_config_yaml demo_env.stoi (demo_env.open_yaml "/etc/aruco.yaml")
      ArucoConfig.default = some (true, demo_cfg) ∧
    load_config_yaml demo_env.stoi (demo_env.open_yaml "/etc/scale3.yaml")
      ArucoConfig.default = some (true, scale3_cfg) ∧
    load_config_yaml demo_env.stoi (demo_env.open_yaml "/etc/longname.yaml")
      ArucoConfig.default = some (true, long_name_cfg) := by
  refine ⟨?_, ?_, ?_, ?_, ?_, ?_, ?_, ?_⟩ <;> decide!

/-! ## Lookup lemmas -/

theorem find_eq_none_of_not_mem_keys (m : UnorderedMap) (id : Int)
    (h : id ∉ m.keys) : m.find id = none := by
  induction m with
  | nil => rfl
  | cons kv rest ih =>
    obtain ⟨k, v⟩ := kv
    simp only [UnorderedMap.keys, List.map_cons, List.mem_cons, not_or] at h
    have hk : ¬ k = id := fun e => h.1 e.symm
    simp only [UnorderedMap.find, hk, if_false]
    exact ih h.2

theorem find_eq_some_of_mem (m : UnorderedMap) (id : Int) (v : FP)
    (hnd : m.keys.Nodup) (h : (id, v) ∈ m) : m.find id = some v := by
  induction m with
  | nil => cases h
  | cons kv rest ih =>
    obtain ⟨k, w⟩ := kv
    simp only [UnorderedMap.keys, List.map_cons, List.nodup_cons] at hnd
    rcases List.mem_cons.mp h with heq | hrest
    · cases heq
      simp [UnorderedMap.find]
    · have hk : ¬ k = id := by
        intro e
        apply hnd.1
        rw [e]
        exact List.mem_map.mpr ⟨(id, v), hrest, rfl⟩
      simp only [UnorderedMap.find, hk, if_false]
      exact ih hnd.2 hrest

theorem find_some_mem (m : UnorderedMap) (id : Int) (v : FP)
    (h : m.find id = some v) : (id, v) ∈ m := by
  induction m with
  | nil => cases h
  | cons kv rest ih =>
    obtain ⟨k, w⟩ := kv
    by_cases hk : k = id
    · simp only [UnorderedMap.find, hk, if_true, Option.some.injEq] at h
      subst hk; subst h
      exact List.mem_cons_self _ _
    · simp only [UnorderedMap.find, hk, if_false] at h
      exact List.mem_cons_of_mem _ (ih h)

/-- The keys after `m[id] = val`: unchanged when `id` was a key, and otherwise
with `id` added at the end. -/
theorem keys_assign (m : UnorderedMap) (id : Int) (val : FP) :
    (m.assign id val).keys = if id ∈ m.keys then m.keys else m.keys ++ [id] := by
  induction m with
  | nil => simp [UnorderedMap.assign, UnorderedMap.keys]
  | cons kv rest ih =>
    obtain ⟨k, v⟩ := kv
    by_cases hk : k = id
    · subst hk
      simp [UnorderedMap.assign, UnorderedMap.keys]
    · have hk2 : ¬ id = k := fun e => hk e.symm
      simp only [UnorderedMap.keys] at ih
      simp only [UnorderedMap.assign, hk, if_false, UnorderedMap.keys, List.map_cons,
        List.mem_cons, hk2, false_or, ih]
      split_ifs <;> simp

/-- The keys of the map stay distinct under `m[id] = val`, so the map that
`load_config_yaml` builds has distinct keys. -/
theorem keys_nodup_assign (m : UnorderedMap) (id : Int) (val : FP)
    (h : m.keys.Nodup) : (m.assign id val).keys.Nodup := by
  rw [keys_assign]
  split_ifs with hmem
  · exact h
  · exact List.Nodup.append h (List.nodup_singleton id)
      (by
        intro a ha hb
        rw [List.mem_singleton] at hb
        exact hmem (hb ▸ ha))

theorem keys_nodup_load_id_size_map (stoi : String → Option Int)
    (entries : List (String × FP)) (m m2 : UnorderedMap)
    (h : m.keys.Nodup) (hload : load_id_size_map stoi entries m = some m2) :
    m2.keys.Nodup := by
  induction entries generalizing m with
  | nil =>
    simp only [load_id_size_map, Option.some.injEq] at hload
    exact hload ▸ h
  | cons e rest ih =>
    obtain ⟨name, val⟩ := e
    simp only [load_id_size_map] at hload
    cases hs : stoi name with
    | none => rw [hs] at hload; cases hload
    | some id =>
      rw [hs] at hload
      exact ih (m.assign id val) (keys_nodup_assign m id val h) hload

/-! ## C1 -/

/-- C1: `size_for_id` is a total lookup with default fallback.  For every
configuration and every integer id (negative ones and the empty map included)
it returns a value: the value the map binds to the id when the id is a key of
`id_size_map` (the keys of a `std::unordered_map` are distinct), and
`default_size_m` when the id is not a key. -/
theorem size_for_id_total_lookup (cfg : ArucoConfig) (id : Int) :
    (cfg.id_size_map.keys.Nodup →
      ∀ v, (id, v) ∈ cfg.id_size_map → size_for_id cfg id = v) ∧
    (id ∈ cfg.id_size_map.keys →
      ∃ v, (id, v) ∈ cfg.id_size_map ∧ size_for_id cfg id = v) ∧
    (id ∉ cfg.id_size_map.keys → size_for_id cfg id = cfg.default_size_m) := by
  refine ⟨?_, ?_, ?_⟩
  · intro hnd v hv
    simp only [size_for_id, find_eq_some_of_mem _ _ _ hnd hv]
  · intro hk
    cases hf : cfg.id_size_map.find id with
    | none =>
      exfalso
      have : ∀ (m : UnorderedMap), id ∈ m.keys → m.find id ≠ none := by
        intro m
        induction m with
        | nil => intro h; cases h
        | cons kv rest ih =>
          obtain ⟨k, w⟩ := kv
          intro h
          by_cases e : k = id
          · simp [UnorderedMap.find, e]
          · simp only [UnorderedMap.find, e, if_false]
            apply ih
            simp only [UnorderedMap.keys, List.map_cons, List.mem_cons] at h
            rcases h with h | h
            · exact absurd h.symm e
            · exact h
      exact this _ hk hf
    | some v =>
      exact ⟨v, find_some_mem _ _ _ hf, by simp only [size_for_id, hf]⟩
  · intro hk
    simp only [size_for_id, find_eq_none_of_not_mem_keys _ _ hk]

/-- C1 at concrete inputs: id 7 is a key of the map and resolves to its entry;
the negative id -3 is absent and resolves to the default, also on the empty
map. -/
theorem size_for_id_total_lookup_witness :
    size_for_id demo_cfg 7 = FP.fin (1 / 4) ∧
    size_for_id demo_cfg (-3) = demo_cfg.default_size_m ∧
    size_for_id ArucoConfig.default (-3) = to_double (16 / 100) :=
  ⟨(size_for_id_total_lookup demo_cfg 7).1 (by decide) (FP.fin (1 / 4)) (by simp [demo_cfg]),
   (size_for_id_total_lookup demo_cfg (-3)).2.2 (by decide),
   (size_for_id_total_lookup ArucoConfig.default (-3)).2.2 (by decide)⟩

/-! ## C10 -/

/-- C10: `dict_from_name` never fails and falls back silently.  Each of the six
names selects the predefined dictionary of that name, and every other string
(the empty one and differently-cased names included) selects `DICT_4X4_50`. -/
theorem dict_from_name_fallback :
    dict_from_name "DICT_4X4_50" = DICT_4X4_50 ∧
    dict_from_name "DICT_4X4_100" = DICT_4X4_100 ∧
    dict_from_name "DICT_5X5_50" = DICT_5X5_50 ∧
    dict_from_name "DICT_5X5_100" = DICT_5X5_100 ∧
    dict_from_name "DICT_6X6_50" = DICT_6X6_50 ∧
    dict_from_name "DICT_6X6_100" = DICT_6X6_100 ∧
    ∀ name : String,
      name ∉ ["DICT_4X4_50", "DICT_4X4_100", "DICT_5X5_50", "DICT_5X5_100",
              "DICT_6X6_50", "DICT_6X6_100"] →
      dict_from_name name = DICT_4X4_50 := by
  refine ⟨by decide, by decide, by decide, by decide, by decide, by decide, ?_⟩
  intro name h
  simp only [List.mem_cons, List.mem_singleton, List.not_mem_nil, or_false, not_or] at h
  obtain ⟨h1, h2, h3, h4, h5, h6⟩ := h
  have e1 : (name == "DICT_4X4_50") = false := beq_eq_false_iff_ne.mpr h1
  have e2 : (name == "DICT_4X4_100") = false := beq_eq_false_iff_ne.mpr h2
  have e3 : (name == "DICT_5X5_50") = false := beq_eq_false_iff_ne.mpr h3
  have e4 : (name == "DICT_5X5_100") = false := beq_eq_false_iff_ne.mpr h4
  have e5 : (name == "DICT_6X6_50") = false := beq_eq_false_iff_ne.mpr h5
  have e6 : (name == "DICT_6X6_100") = false := beq_eq_false_iff_ne.mpr h6
  simp only [dict_from_name, dict_name_table, List.lookup, e1, e2, e3, e4, e5, e6]

/-- C10 at concrete inputs: the empty string, a lower-case spelling and a
dictionary name outside the table all select `DICT_4X4_50`. -/
theorem dict_from_name_fallback_witness :
    dict_from_name "" = DICT_4X4_50 ∧
    dict_from_name "dict_6x6_100" = DICT_4X4_50 ∧
    dict_from_name "DICT_7X7_50" = DICT_4X4_50 :=
  ⟨dict_from_name_fallback.2.2.2.2.2.2 "" (by decide),
   dict_from_name_fallback.2.2.2.2.2.2 "dict_6x6_100" (by decide),
   dict_from_name_fallback.2.2.2.2.2.2 "DICT_7X7_50" (by decide)⟩

/-! ## Rounding lemmas -/

/-- Rounding commutes with negation: the formats are symmetric about zero. -/
theorem round_to_neg (prec : Nat) (emin emax : Int) (q : ℚ) :
    round_to prec emin emax (-q) = dneg (round_to prec emin emax q) := by
  unfold round_to
  by_cases h : q = 0
  · subst h
    simp [dneg]
  · have h2 : ¬ (-q = 0) := fun e => h (neg_eq_zero.mp e)
    rw [if_neg h2, if_neg h, Rat.neg_num, Int.natAbs_neg, Rat.neg_den]
    have hlt : (-q < 0) ↔ ¬ (q < 0) := by
      constructor
      · intro h3 h4
        linarith
      · intro h3
        have : 0 < q := lt_of_le_of_ne (not_lt.mp h3) (Ne.symm h)
        linarith
    cases round_mag prec emin emax q.num.natAbs q.den with
    | none =>
      by_cases hq : q < 0
      · have : ¬ (-q < 0) := fun h3 => (hlt.mp h3) hq
        simp [dneg, hq, this]
      · have : -q < 0 := hlt.mpr hq
        simp [dneg, hq, this]
    | some v =>
      by_cases hq : q < 0
      · have : ¬ (-q < 0) := fun h3 => (hlt.mp h3) hq
        simp [dneg, hq, this]
      · have : -q < 0 := hlt.mpr hq
        simp [dneg, hq, this]

/-- The conversion to `float` commutes with negation. -/
theorem cast_float_dneg (v : FP) : cast_float (dneg v) = dneg (cast_float v) := by
  cases v with
  | fin q => exact round_to_neg 24 (-126) 127 q
  | inf s => rfl
  | nan => rfl

/-! ## The frame loop: general lemmas -/

theorem published_append (a b : List Event) :
    published (a ++ b) = published a ++ published b := by
  simp [published, List.filterMap_append]

theorem solver_corners_append (a b : List Event) :
    solver_corners (a ++ b) = solver_corners a ++ solver_corners b := by
  simp [solver_corners, List.filterMap_append]

theorem solver_objects_append (a b : List Event) :
    solver_objects (a ++ b) = solver_objects a ++ solver_objects b := by
  simp [solver_objects, List.filterMap_append]

theorem detector_images_append (a b : List Event) :
    detector_images (a ++ b) = detector_images a ++ detector_images b := by
  simp [detector_images, List.filterMap_append]

/-- Reading a vector at each of its indices gives the vector back. -/
theorem map_range_getD {α β : Type} (l : List α) (d : α) (f : α → β) :
    (List.range l.length).map (fun i => f (l.getD i d)) = l.map f := by
  apply List.ext_getElem
  · simp
  · intro i h1 h2
    simp only [List.length_map, List.length_range] at h1
    simp [List.getElem?_eq_getElem h1]

/-- A pass whose frame was read in full and converted to gray reaches the next
pass, with these events. -/
theorem frame_iteration_detect (x : Env) (cfg : ArucoConfig) (K D : Mat)
    (dict : PREDEFINED_DICTIONARY_NAME) (params : DetectorParameters) (r : FrameRead)
    (gray : Image)
    (hmeta : r.meta_ret = x.sizeof_meta)
    (hpay : r.payload_ret = (r.meta.size_bytes : Int))
    (hgray : to_gray cfg r = Gray.image gray) :
    frame_iteration x cfg K D dict params r =
      (LoopCtl.next,
       (if cfg.downscale > 1 then
          [Event.resize_call gray (one_over cfg.downscale) (one_over cfg.downscale)]
        else []) ++
      [Event.detect_call (proc_of x cfg gray) dict params] ++
      (List.range (x.detectMarkers (proc_of x cfg gray) dict params).2.length).flatMap
        (marker_events x cfg K D r.meta (scale_of cfg)
          (x.detectMarkers (proc_of x cfg gray) dict params).1
          (x.detectMarkers (proc_of x cfg gray) dict params).2)) := by
  simp only [frame_iteration, hmeta, hpay, hgray, ne_eq, not_true_eq_false, if_false]

theorem published_marker_events (x : Env) (cfg : ArucoConfig) (K D : Mat)
    (m : image_metadata_t) (scale : FP) (corners : List (List Point2f)) (ids : List Int)
    (l : List Nat) :
    published (l.flatMap (marker_events x cfg K D m scale corners ids)) =
      l.map (marker_detection x cfg K D m scale corners ids) := by
  induction l with
  | nil => rfl
  | cons i rest ih =>
    rw [List.flatMap_cons, published_append, ih]
    simp [published, marker_events]

theorem solver_corners_marker_events (x : Env) (cfg : ArucoConfig) (K D : Mat)
    (m : image_metadata_t) (scale : FP) (corners : List (List Point2f)) (ids : List Int)
    (l : List Nat) :
    solver_corners (l.flatMap (marker_events x cfg K D m scale corners ids)) =
      l.map (fun i => rescale_corners scale (corners.getD i [])) := by
  induction l with
  | nil => rfl
  | cons i rest ih =>
    rw [List.flatMap_cons, solver_corners_append, ih]
    simp [solver_corners, marker_events]

theorem solver_objects_marker_events (x : Env) (cfg : ArucoConfig) (K D : Mat)
    (m : image_metadata_t) (scale : FP) (corners : List (List Point2f)) (ids : List Int)
    (l : List Nat) :
    solver_objects (l.flatMap (marker_events x cfg K D m scale corners ids)) =
      l.map (fun i => object_points (size_for_id cfg (ids.getD i 0))) := by
  induction l with
  | nil => rfl
  | cons i rest ih =>
    rw [List.flatMap_cons, solver_objects_append, ih]
    simp [solver_objects, marker_events]

theorem detector_images_marker_events (x : Env) (cfg : ArucoConfig) (K D : Mat)
    (m : image_metadata_t) (scale : FP) (corners : List (List Point2f)) (ids : List Int)
    (l : List Nat) :
    detector_images (l.flatMap (marker_events x cfg K D m scale corners ids)) = [] := by
  induction l with
  | nil => rfl
  | cons i rest ih =>
    rw [List.flatMap_cons, detector_images_append, ih]
    simp [detector_images, marker_events]

/-- The records a detecting pass writes: one per index of `ids`. -/
theorem published_frame_iteration (x : Env) (cfg : ArucoConfig) (K D : Mat)
    (dict : PREDEFINED_DICTIONARY_NAME) (params : DetectorParameters) (r : FrameRead)
    (gray : Image)
    (hmeta : r.meta_ret = x.sizeof_meta)
    (hpay : r.payload_ret = (r.meta.size_bytes : Int))
    (hgray : to_gray cfg r = Gray.image gray) :
    published (frame_iteration x cfg K D dict params r).2 =
      (List.range (x.detectMarkers (proc_of x cfg gray) dict params).2.length).map
        (marker_detection x cfg K D r.meta (scale_of cfg)
          (x.detectMarkers (proc_of x cfg gray) dict params).1
          (x.detectMarkers (proc_of x cfg gray) dict params).2) := by
  rw [frame_iteration_detect x cfg K D dict params r gray hmeta hpay hgray]
  simp only
  rw [published_append, published_append, published_marker_events]
  split_ifs <;> simp [published]

/-- The loop on a first pass that reaches the next one. -/
theorem frame_loop_cons_next (x : Env) (cfg : ArucoConfig) (K D : Mat)
    (dict : PREDEFINED_DICTIONARY_NAME) (params : DetectorParameters)
    (r : FrameRead) (rest : List FrameRead) (evs : List Event)
    (h : frame_iteration x cfg K D dict params r = (LoopCtl.next, evs)) :
    frame_loop x cfg K D dict params (r :: rest) =
      ((frame_loop x cfg K D dict params rest).1,
        evs ++ (frame_loop x cfg K D dict params rest).2) := by
  simp only [frame_loop, h]

/-- The loop on a first pass that does not reach the next one. -/
theorem frame_loop_cons_stop (x : Env) (cfg : ArucoConfig) (K D : Mat)
    (dict : PREDEFINED_DICTIONARY_NAME) (params : DetectorParameters)
    (r : FrameRead) (rest : List FrameRead) (ctl : LoopCtl) (evs : List Event)
    (h : frame_iteration x cfg K D dict params r = (ctl, evs))
    (hctl : ctl ≠ LoopCtl.next) :
    frame_loop x cfg K D dict params (r :: rest) = (ctl, evs) := by
  cases ctl with
  | next => exact absurd rfl hctl
  | leave => simp only [frame_loop, h]
  | fault => simp only [frame_loop, h]

/-- The loop over two runs of passes, when the first run ends by reaching the
next pass. -/
theorem frame_loop_append (x : Env) (cfg : ArucoConfig) (K D : Mat)
    (dict : PREDEFINED_DICTIONARY_NAME) (params : DetectorParameters)
    (before after : List FrameRead)
    (h : (frame_loop x cfg K D dict params before).1 = LoopCtl.next) :
    frame_loop x cfg K D dict params (before ++ after) =
      ((frame_loop x cfg K D dict params after).1,
        (frame_loop x cfg K D dict params before).2 ++
          (frame_loop x cfg K D dict params after).2) := by
  induction before with
  | nil => simp [frame_loop]
  | cons b rest ih =>
    rcases hb : frame_iteration x cfg K D dict params b with ⟨ctl, evs⟩
    by_cases hctl : ctl = LoopCtl.next
    · subst hctl
      rw [frame_loop_cons_next x cfg K D dict params b rest evs hb] at h
      rw [List.cons_append, frame_loop_cons_next x cfg K D dict params b _ evs hb,
        frame_loop_cons_next x cfg K D dict params b rest evs hb, ih h, List.append_assoc]
    · rw [frame_loop_cons_stop x cfg K D dict params b rest ctl evs hb hctl] at h
      exact absurd h hctl

/-- When the configuration loads, the calibration is present and both pipes
open, `main` reaches the frame loop and does not return: its events are those
of the loop, run with the configured dictionary and detector parameters. -/
theorem main_enters_loop (x : Env) (argv : List String) (reads : List FrameRead)
    (cfg : ArucoConfig)
    (hload : load_config_yaml x.stoi (x.open_yaml (cfg_path_of argv)) ArucoConfig.default =
      some (true, cfg))
    (hK : mat_empty (x.read_intrinsics cfg.intrinsics).1 = false)
    (hD : mat_empty (x.read_intrinsics cfg.intrinsics).2 = false)
    (hin : x.pipe_client_open_path (c_str cfg.camera_pipe) = 0)
    (hout : x.pipe_server_create (c_str cfg.out_pipe) = 0) :
    (main x argv reads).exit_code = none ∧
    (main x argv reads).entered_loop = true ∧
    (main x argv reads).events =
      (frame_loop x cfg (x.read_intrinsics cfg.intrinsics).1
        (x.read_intrinsics cfg.intrinsics).2 (dict_from_name cfg.aruco_dict)
        (detector_params cfg) reads).2 := by
  simp [main, hload, hK, hD, hin, hout]

/-! ## C6 -/

/-- C6, as stated, fails on `size_m` and on the camera name.  With the
configuration file whose camera name has 70 characters and a 64-byte `cam`
field, the two records that `main` publishes for the sample frame carry the
first 63 bytes of the name, not the configured name; and the record of
marker 3, whose size is the default `0.16`, carries the `float`
5368709/2^25, not the `double` 5764607523034235/2^55 that `size_for_id`
returns. -/
theorem detection_fields_counterexample :
    (published (main demo_env ["voxl-aruco-detector", "/etc/longname.yaml"]
        [demo_read]).events).map (fun d => (d.id, d.size_m, d.cam)) =
      [(7, FP.fin (1 / 4),
          bytes_of "tracking_front_left_stereo_camera_of_the_second_survey_drone_un"),
       (3, FP.fin (5368709 / 2 ^ 25),
          bytes_of "tracking_front_left_stereo_camera_of_the_second_survey_drone_un")] ∧
    size_for_id long_name_cfg 3 = FP.fin (5764607523034235 / 2 ^ 55) ∧
    ¬ ((published (main demo_env ["voxl-aruco-detector", "/etc/longname.yaml"]
        [demo_read]).events).map (fun d => d.size_m) =
      [size_for_id long_name_cfg 7, size_for_id long_name_cfg 3]) ∧
    ¬ ((published (main demo_env ["voxl-aruco-detector", "/etc/longname.yaml"]
        [demo_read]).events).map (fun d => d.cam) =
      [bytes_of long_name_cfg.camera_name, bytes_of long_name_cfg.camera_name]) := by
  refine ⟨?_, ?_, ?_, ?_⟩ <;> decide!

/-- The C string `snprintf` leaves in a field is the whole string when the
string has no NUL byte and fewer bytes than the field. -/
theorem snprintf_s_fits (size : Nat) (s : String)
    (hlen : (bytes_of s).length < size) (hnul : (0 : UInt8) ∉ bytes_of s) :
    snprintf_s size s = bytes_of s := by
  have hc : c_str s = bytes_of s := by
    unfold c_str
    rw [List.takeWhile_eq_self_iff]
    intro b hb
    have : b ≠ 0 := fun e => hnul (e ▸ hb)
    simpa using this
  unfold snprintf_s
  rw [hc, List.take_of_length_le (by omega)]

/-- C6 (amended): one record per detected marker.  On every frame that is read
in full and converted to gray, when the detector returns n marker ids the pass
publishes exactly n Detection records, in detector order, and the i-th record
has the i-th detected id, `size_m` equal to `size_for_id` of that id converted
to `float`, the timestamp of the frame, and as camera name what `snprintf`
leaves of the configured `camera_name` in the `cam` field: its first
`sizeof(cam) - 1` bytes, which is the whole name when it has fewer bytes than
the field. -/
theorem detections_one_per_marker (x : Env) (cfg : ArucoConfig) (K D : Mat)
    (dict : PREDEFINED_DICTIONARY_NAME) (params : DetectorParameters) (r : FrameRead)
    (gray : Image)
    (hmeta : r.meta_ret = x.sizeof_meta)
    (hpay : r.payload_ret = (r.meta.size_bytes : Int))
    (hgray : to_gray cfg r = Gray.image gray) :
    (published (frame_iteration x cfg K D dict params r).2).length =
      (x.detectMarkers (proc_of x cfg gray) dict params).2.length ∧
    (published (frame_iteration x cfg K D dict params r).2).map
        (fun d => (d.id, d.size_m, d.timestamp_ns, d.cam)) =
      (x.detectMarkers (proc_of x cfg gray) dict params).2.map
        (fun id => (id, cast_float (size_for_id cfg id), r.meta.timestamp_ns,
          snprintf_s x.sizeof_cam cfg.camera_name)) ∧
    ((bytes_of cfg.camera_name).length < x.sizeof_cam →
      (0 : UInt8) ∉ bytes_of cfg.camera_name →
      (published (frame_iteration x cfg K D dict params r).2).map
          (fun d => (d.id, d.size_m, d.timestamp_ns, d.cam)) =
        (x.detectMarkers (proc_of x cfg gray) dict params).2.map
          (fun id => (id, cast_float (size_for_id cfg id), r.meta.timestamp_ns,
            bytes_of cfg.camera_name))) := by
  have hpub := published_frame_iteration x cfg K D dict params r gray hmeta hpay hgray
  have hmap : (published (frame_iteration x cfg K D dict params r).2).map
        (fun d => (d.id, d.size_m, d.timestamp_ns, d.cam)) =
      (x.detectMarkers (proc_of x cfg gray) dict params).2.map
        (fun id => (id, cast_float (size_for_id cfg id), r.meta.timestamp_ns,
          snprintf_s x.sizeof_cam cfg.camera_name)) := by
    rw [hpub, List.map_map]
    exact map_range_getD (x.detectMarkers (proc_of x cfg gray) dict params).2 0
      (fun id => (id, cast_float (size_for_id cfg id), r.meta.timestamp_ns,
          snprintf_s x.sizeof_cam cfg.camera_name))
  refine ⟨?_, hmap, ?_⟩
  · rw [hpub]; simp
  · intro hlen hnul
    rw [hmap, snprintf_s_fits _ _ hlen hnul]

/-- C6 (amended) on the sample frame: two ids detected, two records, with the
sizes converted to `float` and the camera name `tracking` in full. -/
theorem detections_one_per_marker_witness :
    (published (frame_iteration demo_env demo_cfg demo_K demo_D DICT_4X4_50
        (detector_params demo_cfg) demo_read).2).map
        (fun d => (d.id, d.size_m, d.timestamp_ns, d.cam)) =
      [(7, cast_float (size_for_id demo_cfg 7), 1000, bytes_of "tracking"),
       (3, cast_float (size_for_id demo_cfg 3), 1000, bytes_of "tracking")] :=
  (detections_one_per_marker demo_env demo_cfg demo_K demo_D DICT_4X4_50
    (detector_params demo_cfg) demo_read demo_gray
    (by decide) (by decide) (by decide)).2.2 (by decide) (by decide)

/-! ## C2 -/

/-- C2, as stated, fails: on the sample frame the detector returns marker 7
with its four corners on one line and marker 3 with a proper square; the solver
reports failure for marker 7, and `main` writes a record with id 7 all the
same, before the record of marker 3. -/
theorem degenerate_marker_counterexample :
    solver_corners (main demo_env ["voxl-aruco-detector", "/etc/aruco.yaml"]
        [demo_read]).events =
      [[{ x := 0, y := 0 }, { x := 2, y := 2 }, { x := 4, y := 4 }, { x := 6, y := 6 }],
       [{ x := 0, y := 0 }, { x := 2, y := 0 }, { x := 2, y := 2 }, { x := 0, y := 2 }]] ∧
    degenerate_quad
      [{ x := 0, y := 0 }, { x := 2, y := 2 }, { x := 4, y := 4 }, { x := 6, y := 6 }] = true ∧
    (demo_env.solvePnP (object_points (size_for_id demo_cfg 7))
      [{ x := 0, y := 0 }, { x := 2, y := 2 }, { x := 4, y := 4 }, { x := 6, y := 6 }]
      demo_K demo_D).1 = false ∧
    (published (main demo_env ["voxl-aruco-detector", "/etc/aruco.yaml"]
        [demo_read]).events).map (fun d => (d.id, d.T_tag_wrt_cam)) =
      [(7, [0, 0, 0]), (3, [0, 0, 1])] := by
  refine ⟨?_, ?_, ?_, ?_⟩ <;> decide!

/-- C2 (amended): the loop does not consult the result of the pose solve.  On
every frame that is read in full and converted to gray, a detected marker whose
pose solve reports failure (as for collinear or degenerate corners) still gets
its Detection record written, at its place among the records of the frame,
carrying the `tvec` the solver left, converted to `float`; the frame publishes
as many records as there are detected ids, so the other markers are published
too. -/
theorem unsolved_marker_still_published (x : Env) (cfg : ArucoConfig) (K D : Mat)
    (dict : PREDEFINED_DICTIONARY_NAME) (params : DetectorParameters) (r : FrameRead)
    (gray : Image) (i : Nat)
    (hmeta : r.meta_ret = x.sizeof_meta)
    (hpay : r.payload_ret = (r.meta.size_bytes : Int))
    (hgray : to_gray cfg r = Gray.image gray)
    (hi : i < (x.detectMarkers (proc_of x cfg gray) dict params).2.length)
    (hfail : (x.solvePnP
        (object_points (size_for_id cfg
          ((x.detectMarkers (proc_of x cfg gray) dict params).2.getD i 0)))
        (rescale_corners (scale_of cfg)
          ((x.detectMarkers (proc_of x cfg gray) dict params).1.getD i []))
        K D).1 = false) :
    (published (frame_iteration x cfg K D dict params r).2).length =
      (x.detectMarkers (proc_of x cfg gray) dict params).2.length ∧
    ∃ det, (published (frame_iteration x cfg K D dict params r).2)[i]? = some det ∧
      det.id = (x.detectMarkers (proc_of x cfg gray) dict params).2.getD i 0 ∧
      det.T_tag_wrt_cam =
        [cast_float (x.solvePnP
            (object_points (size_for_id cfg
              ((x.detectMarkers (proc_of x cfg gray) dict params).2.getD i 0)))
            (rescale_corners (scale_of cfg)
              ((x.detectMarkers (proc_of x cfg gray) dict params).1.getD i []))
            K D).2.2.v0,
         cast_float (x.solvePnP
            (object_points (size_for_id cfg
              ((x.detectMarkers (proc_of x cfg gray) dict params).2.getD i 0)))
            (rescale_corners (scale_of cfg)
              ((x.detectMarkers (proc_of x cfg gray) dict params).1.getD i []))
            K D).2.2.v1,
         cast_float (x.solvePnP
            (object_points (size_for_id cfg
              ((x.detectMarkers (proc_of x cfg gray) dict params).2.getD i 0)))
            (rescale_corners (scale_of cfg)
              ((x.detectMarkers (proc_of x cfg gray) dict params).1.getD i []))
            K D).2.2.v2] := by
  have hpub := published_frame_iteration x cfg K D dict params r gray hmeta hpay hgray
  have _ := hfail
  refine ⟨by rw [hpub]; simp, ?_⟩
  refine ⟨marker_detection x cfg K D r.meta (scale_of cfg)
          (x.detectMarkers (proc_of x cfg gray) dict params).1
          (x.detectMarkers (proc_of x cfg gray) dict params).2 i, ?_, rfl, rfl⟩
  rw [hpub, List.getElem?_map, List.getElem?_range hi]
  rfl

/-- C2 (amended) on the sample frame: marker 7, at index 0, has collinear
corners and a failing solve, and the first record written has id 7 and a zero
translation. -/
theorem unsolved_marker_still_published_witness :
    (published (frame_iteration demo_env demo_cfg demo_K demo_D DICT_4X4_50
        (detector_params demo_cfg) demo_read).2).length = 2 ∧
    ∃ det, (published (frame_iteration demo_env demo_cfg demo_K demo_D DICT_4X4_50
        (detector_params demo_cfg) demo_read).2)[0]? = some det ∧
      det.id = 7 ∧ det.T_tag_wrt_cam = [0, 0, 0] := by
  obtain ⟨hlen, det, hdet, hid, htvec⟩ :=
    unsolved_marker_still_published demo_env demo_cfg demo_K demo_D DICT_4X4_50
      (detector_params demo_cfg) demo_read demo_gray 0
      (by decide) (by decide) (by decide) (by decide) (by decide!)
  refine ⟨hlen, det, hdet, hid, ?_⟩
  rw [htvec]
  decide!

/-! ## C3 -/

/-- C3, as stated, fails: with downscale 3 the detector's corner at
x = 0.1f = 13421773/2^27 reaches the solver as the `float` 5033165/2^24, not as
the product 3 * 0.1f = 40265319/2^27, which no `float` holds. -/
theorem corner_product_counterexample :
    (demo_env.detectMarkers { rows := 1, cols := 1, data := [10] } DICT_5X5_50
        (detector_params scale3_cfg)).1 =
      [[{ x := FP.fin (13421773 / 2 ^ 27), y := FP.fin 0 }, { x := FP.fin 1, y := FP.fin 0 },
        { x := FP.fin 1, y := FP.fin 1 }, { x := FP.fin 0, y := FP.fin 1 }]] ∧
    solver_corners (main demo_env ["voxl-aruco-detector", "/etc/scale3.yaml"]
        [demo_read]).events =
      [[{ x := FP.fin (5033165 / 2 ^ 24), y := FP.fin 0 }, { x := FP.fin 3, y := FP.fin 0 },
        { x := FP.fin 3, y := FP.fin 3 }, { x := FP.fin 0, y := FP.fin 3 }]] ∧
    ¬ (solver_corners (main demo_env ["voxl-aruco-detector", "/etc/scale3.yaml"]
        [demo_read]).events =
      [[{ x := FP.fin (13421773 / 2 ^ 27 * 3), y := FP.fin (0 * 3) },
        { x := FP.fin (1 * 3), y := FP.fin (0 * 3) },
        { x := FP.fin (1 * 3), y := FP.fin (1 * 3) },
        { x := FP.fin (0 * 3), y := FP.fin (1 * 3) }]]) := by
  refine ⟨?_, ?_, ?_⟩ <;> decide!

/-- The value of `scale` for a downscale factor above 1 is not 1. -/
theorem scale_of_gt_one (cfg : ArucoConfig) (hd : cfg.downscale > 1) :
    scale_of cfg = int_to_double cfg.downscale ∧ scale_of cfg ≠ FP.fin 1 := by
  have h1 : scale_of cfg = int_to_double cfg.downscale := by
    simp [scale_of, hd]
  refine ⟨h1, ?_⟩
  rw [h1]
  intro e
  simp only [int_to_double, FP.fin.injEq] at e
  have : cfg.downscale = 1 := by exact_mod_cast e
  omega

/-- The corners handed to the solver, by the downscale factor. -/
theorem rescale_corners_scale_of (cfg : ArucoConfig) (hd : 1 ≤ cfg.downscale)
    (corners : List Point2f) :
    rescale_corners (scale_of cfg) corners =
      if cfg.downscale = 1 then corners
      else corners.map (rescale_point (int_to_double cfg.downscale)) := by
  by_cases h1 : cfg.downscale = 1
  · have hs : scale_of cfg = FP.fin 1 := by simp [scale_of, h1]
    simp [rescale_corners, hs, h1]
  · have hgt : cfg.downscale > 1 := by omega
    obtain ⟨hs, hne⟩ := scale_of_gt_one cfg hgt
    rw [if_neg h1]
    unfold rescale_corners
    rw [if_pos hne, hs]

/-- The corners handed to the solver on a detecting pass. -/
theorem solver_corners_frame_iteration (x : Env) (cfg : ArucoConfig) (K D : Mat)
    (dict : PREDEFINED_DICTIONARY_NAME) (params : DetectorParameters) (r : FrameRead)
    (gray : Image)
    (hmeta : r.meta_ret = x.sizeof_meta)
    (hpay : r.payload_ret = (r.meta.size_bytes : Int))
    (hgray : to_gray cfg r = Gray.image gray) :
    solver_corners (frame_iteration x cfg K D dict params r).2 =
      (List.range (x.detectMarkers (proc_of x cfg gray) dict params).2.length).map
        (fun i => rescale_corners (scale_of cfg)
          ((x.detectMarkers (proc_of x cfg gray) dict params).1.getD i [])) := by
  rw [frame_iteration_detect x cfg K D dict params r gray hmeta hpay hgray]
  simp only
  rw [solver_corners_append, solver_corners_append, solver_corners_marker_events]
  have h0 : solver_corners
      (if cfg.downscale > 1 then
          [Event.resize_call gray (one_over cfg.downscale) (one_over cfg.downscale)]
        else []) = [] := by
    split_ifs <;> simp [solver_corners]
  rw [h0]
  simp [solver_corners]

/-- C3 (amended): corner rescaling.  For every downscale factor d >= 1, on
every frame that is read in full and converted to gray, the corners handed to
the pose solver for the i-th detected marker are the corners the detector
returned for it, in the same order and number: unchanged when d = 1, and for
d > 1 each with x and y replaced by the `float` nearest to the product of the
detected coordinate and d (the product taken in `double`), which is the
product itself only when a `float` holds it. -/
theorem corners_rescaled (x : Env) (cfg : ArucoConfig) (K D : Mat)
    (dict : PREDEFINED_DICTIONARY_NAME) (params : DetectorParameters) (r : FrameRead)
    (gray : Image)
    (hd : 1 ≤ cfg.downscale)
    (hmeta : r.meta_ret = x.sizeof_meta)
    (hpay : r.payload_ret = (r.meta.size_bytes : Int))
    (hgray : to_gray cfg r = Gray.image gray) :
    (cfg.downscale = 1 →
      solver_corners (frame_iteration x cfg K D dict params r).2 =
        (List.range (x.detectMarkers (proc_of x cfg gray) dict params).2.length).map
          (fun i => (x.detectMarkers (proc_of x cfg gray) dict params).1.getD i [])) ∧
    (cfg.downscale > 1 →
      solver_corners (frame_iteration x cfg K D dict params r).2 =
        (List.range (x.detectMarkers (proc_of x cfg gray) dict params).2.length).map
          (fun i => ((x.detectMarkers (proc_of x cfg gray) dict params).1.getD i []).map
            (fun p =>
              ({ x := cast_float (dmul p.x (int_to_double cfg.downscale)),
                 y := cast_float (dmul p.y (int_to_double cfg.downscale)) } : Point2f)))) ∧
    (∀ i : Nat, i < (x.detectMarkers (proc_of x cfg gray) dict params).2.length →
      ((solver_corners (frame_iteration x cfg K D dict params r).2).getD i []).length =
        ((x.detectMarkers (proc_of x cfg gray) dict params).1.getD i []).length) := by
  have hev := solver_corners_frame_iteration x cfg K D dict params r gray hmeta hpay hgray
  refine ⟨?_, ?_, ?_⟩
  · intro h1
    rw [hev]
    apply List.map_congr_left
    intro i _
    rw [rescale_corners_scale_of cfg hd, if_pos h1]
  · intro hgt
    have h1 : ¬ cfg.downscale = 1 := by omega
    rw [hev]
    apply List.map_congr_left
    intro i _
    rw [rescale_corners_scale_of cfg hd, if_neg h1]
    rfl
  · intro i hi
    rw [hev]
    simp only [List.getD_eq_getElem?_getD, List.getElem?_map, List.getElem?_range hi,
      Option.map_some', Option.getD_some]
    rw [rescale_corners_scale_of cfg hd]
    split_ifs <;> simp

/-- C3 (amended) on the sample frame with downscale 3: the corner at x = 0.1f
reaches the solver as the `float` nearest to the product. -/
theorem corners_rescaled_witness :
    solver_corners (frame_iteration demo_env scale3_cfg demo_K demo_D DICT_5X5_50
        (detector_params scale3_cfg) demo_read).2 =
      (List.range 1).map
        (fun i => ((demo_env.detectMarkers { rows := 1, cols := 1, data := [10] }
            DICT_5X5_50 (detector_params scale3_cfg)).1.getD i []).map
          (fun p =>
            ({ x := cast_float (dmul p.x (int_to_double 3)),
               y := cast_float (dmul p.y (int_to_double 3)) } : Point2f))) :=
  (corners_rescaled demo_env scale3_cfg demo_K demo_D DICT_5X5_50
    (detector_params scale3_cfg) demo_read demo_gray
    (by decide) (by decide) (by decide) (by decide)).2.1 (by decide)

/-! ## C4 -/

/-- C4, as stated, fails: with downscale 2 and corner refinement enabled, the
one image that `main` hands to the detector with `CORNER_REFINE_SUBPIX` on the
sample frame is the 1x1 downscaled image, not the 2x2 full-resolution gray
image. -/
theorem refinement_image_counterexample :
    load_config_yaml demo_env.stoi (demo_env.open_yaml "/etc/aruco.yaml")
        ArucoConfig.default = some (true, demo_cfg) ∧
    demo_cfg.downscale > 1 ∧ demo_cfg.corner_refinement = true ∧
    to_gray demo_cfg demo_read =
      Gray.image { rows := 2, cols := 2, data := [10, 20, 30, 40] } ∧
    detector_images (main demo_env ["voxl-aruco-detector", "/etc/aruco.yaml"]
        [demo_read]).events =
      [({ rows := 1, cols := 1, data := [10] }, CornerRefineMethod.CORNER_REFINE_SUBPIX)] ∧
    ¬ (detector_images (main demo_env ["voxl-aruco-detector", "/etc/aruco.yaml"]
        [demo_read]).events =
      [({ rows := 2, cols := 2, data := [10, 20, 30, 40] },
        CornerRefineMethod.CORNER_REFINE_SUBPIX)]) := by
  refine ⟨?_, ?_, ?_, ?_, ?_, ?_⟩ <;> decide!

/-- C4 (amended): when downscaling is applied (downscale factor > 1) and corner
refinement is enabled, corner refinement is requested of the detector
(`CORNER_REFINE_SUBPIX`) and so is performed on the downscaled image used for
detection, before the corners are rescaled.  The events of the pass are the
resize, that one detector call, and for each marker a solver call and a write:
nothing refines on the full-resolution image, and the solver receives the
detector's corners rescaled by the factor. -/
theorem refinement_on_detection_image (x : Env) (cfg : ArucoConfig) (K D : Mat)
    (dict : PREDEFINED_DICTIONARY_NAME) (r : FrameRead) (gray : Image)
    (hd : cfg.downscale > 1)
    (href : cfg.corner_refinement = true)
    (hmeta : r.meta_ret = x.sizeof_meta)
    (hpay : r.payload_ret = (r.meta.size_bytes : Int))
    (hgray : to_gray cfg r = Gray.image gray) :
    (detector_params cfg).cornerRefinementMethod = CornerRefineMethod.CORNER_REFINE_SUBPIX ∧
    (frame_iteration x cfg K D dict (detector_params cfg) r).2 =
      [Event.resize_call gray (one_over cfg.downscale) (one_over cfg.downscale),
       Event.detect_call
         (x.resize gray (one_over cfg.downscale) (one_over cfg.downscale)) dict
         (detector_params cfg)] ++
      (List.range (x.detectMarkers
          (x.resize gray (one_over cfg.downscale) (one_over cfg.downscale)) dict
          (detector_params cfg)).2.length).flatMap
        (marker_events x cfg K D r.meta (int_to_double cfg.downscale)
          (x.detectMarkers
            (x.resize gray (one_over cfg.downscale) (one_over cfg.downscale)) dict
            (detector_params cfg)).1
          (x.detectMarkers
            (x.resize gray (one_over cfg.downscale) (one_over cfg.downscale)) dict
            (detector_params cfg)).2) ∧
    detector_images (frame_iteration x cfg K D dict (detector_params cfg) r).2 =
      [(x.resize gray (one_over cfg.downscale) (one_over cfg.downscale),
        CornerRefineMethod.CORNER_REFINE_SUBPIX)] ∧
    solver_corners (frame_iteration x cfg K D dict (detector_params cfg) r).2 =
      (List.range (x.detectMarkers
          (x.resize gray (one_over cfg.downscale) (one_over cfg.downscale)) dict
          (detector_params cfg)).2.length).map
        (fun i => ((x.detectMarkers
            (x.resize gray (one_over cfg.downscale) (one_over cfg.downscale)) dict
            (detector_params cfg)).1.getD i []).map
          (rescale_point (int_to_double cfg.downscale))) := by
  have hsub : (detector_params cfg).cornerRefinementMethod =
      CornerRefineMethod.CORNER_REFINE_SUBPIX := by
    simp [detector_params, href]
  have hproc : proc_of x cfg gray =
      x.resize gray (one_over cfg.downscale) (one_over cfg.downscale) := by
    simp [proc_of, hd]
  obtain ⟨hscale, hne⟩ := scale_of_gt_one cfg hd
  have hev := frame_iteration_detect x cfg K D dict (detector_params cfg) r gray
    hmeta hpay hgray
  rw [hproc, hscale, if_pos hd] at hev
  have hev2 : (frame_iteration x cfg K D dict (detector_params cfg) r).2 =
      [Event.resize_call gray (one_over cfg.downscale) (one_over cfg.downscale),
       Event.detect_call
         (x.resize gray (one_over cfg.downscale) (one_over cfg.downscale)) dict
         (detector_params cfg)] ++
      (List.range (x.detectMarkers
          (x.resize gray (one_over cfg.downscale) (one_over cfg.downscale)) dict
          (detector_params cfg)).2.length).flatMap
        (marker_events x cfg K D r.meta (int_to_double cfg.downscale)
          (x.detectMarkers
            (x.resize gray (one_over cfg.downscale) (one_over cfg.downscale)) dict
            (detector_params cfg)).1
          (x.detectMarkers
            (x.resize gray (one_over cfg.downscale) (one_over cfg.downscale)) dict
            (detector_params cfg)).2) := by
    rw [hev]; rfl
  refine ⟨hsub, hev2, ?_, ?_⟩
  · rw [hev2, detector_images_append, detector_images_marker_events]
    simp [detector_images, hsub]
  · rw [hev2, solver_corners_append, solver_corners_marker_events]
    rw [hscale] at hne
    simp [solver_corners, rescale_corners, hne]

/-- C4 (amended) on the sample frame: downscale 2 with refinement enabled; the
detector is called with `CORNER_REFINE_SUBPIX` on the 1x1 downscaled image. -/
theorem refinement_on_detection_image_witness :
    detector_images (frame_iteration demo_env demo_cfg demo_K demo_D DICT_4X4_50
        (detector_params demo_cfg) demo_read).2 =
      [(demo_env.resize demo_gray (one_over 2) (one_over 2),
        CornerRefineMethod.CORNER_REFINE_SUBPIX)] :=
  (refinement_on_detection_image demo_env demo_cfg demo_K demo_D DICT_4X4_50 demo_read
    demo_gray (by decide) (by decide) (by decide) (by decide) (by decide)).2.2.1

/-! ## C5 -/

/-- The object points handed to the solver on a detecting pass: those of
`object_points` for the size of each detected id. -/
theorem solver_objects_frame_iteration (x : Env) (cfg : ArucoConfig) (K D : Mat)
    (dict : PREDEFINED_DICTIONARY_NAME) (params : DetectorParameters) (r : FrameRead)
    (gray : Image)
    (hmeta : r.meta_ret = x.sizeof_meta)
    (hpay : r.payload_ret = (r.meta.size_bytes : Int))
    (hgray : to_gray cfg r = Gray.image gray) :
    solver_objects (frame_iteration x cfg K D dict params r).2 =
      (x.detectMarkers (proc_of x cfg gray) dict params).2.map
        (fun id => object_points (size_for_id cfg id)) := by
  rw [frame_iteration_detect x cfg K D dict params r gray hmeta hpay hgray]
  simp only
  rw [solver_objects_append, solver_objects_append, solver_objects_marker_events]
  have h0 : solver_objects
      (if cfg.downscale > 1 then
          [Event.resize_call gray (one_over cfg.downscale) (one_over cfg.downscale)]
        else []) = [] := by
    split_ifs <;> simp [solver_objects]
  rw [h0]
  simp only [solver_objects, List.filterMap_cons, List.filterMap_nil, List.nil_append]
  exact map_range_getD _ 0 (fun id => object_points (size_for_id cfg id))

/-- C5, as stated, fails: for the default side length `0.16` (the `double`
5764607523034235/2^55) the object points that `main` hands to the solver for
marker 3 have coordinates +-5368709/2^26, the `float` nearest to 0.08, not
+-size_m/2; cyclically consecutive points are 5368709/2^25 apart, not
size_m. -/
theorem object_points_counterexample :
    size_for_id demo_cfg 3 = FP.fin (5764607523034235 / 2 ^ 55) ∧
    (solver_objects (main demo_env ["voxl-aruco-detector", "/etc/aruco.yaml"]
        [demo_read]).events)[1]? = some (object_points (size_for_id demo_cfg 3)) ∧
    object_points (size_for_id demo_cfg 3) =
      [{ x := FP.fin (-(5368709 / 2 ^ 26)), y := FP.fin (5368709 / 2 ^ 26), z := FP.fin 0 },
       { x := FP.fin (5368709 / 2 ^ 26), y := FP.fin (5368709 / 2 ^ 26), z := FP.fin 0 },
       { x := FP.fin (5368709 / 2 ^ 26), y := FP.fin (-(5368709 / 2 ^ 26)), z := FP.fin 0 },
       { x := FP.fin (-(5368709 / 2 ^ 26)), y := FP.fin (-(5368709 / 2 ^ 26)),
         z := FP.fin 0 }] ∧
    ¬ (object_points (size_for_id demo_cfg 3) =
      [{ x := FP.fin (-(5764607523034235 / 2 ^ 55 / 2)),
         y := FP.fin (5764607523034235 / 2 ^ 55 / 2), z := FP.fin 0 },
       { x := FP.fin (5764607523034235 / 2 ^ 55 / 2),
         y := FP.fin (5764607523034235 / 2 ^ 55 / 2), z := FP.fin 0 },
       { x := FP.fin (5764607523034235 / 2 ^ 55 / 2),
         y := FP.fin (-(5764607523034235 / 2 ^ 55 / 2)), z := FP.fin 0 },
       { x := FP.fin (-(5764607523034235 / 2 ^ 55 / 2)),
         y := FP.fin (-(5764607523034235 / 2 ^ 55 / 2)), z := FP.fin 0 }]) ∧
    finite_points (object_points (size_for_id demo_cfg 3)) =
      some (square_corners (5368709 / 2 ^ 26)) ∧
    (∀ pq ∈ cyclic_pairs (square_corners (5368709 / 2 ^ 26)),
      dist_sq pq.1 pq.2 = (5368709 / 2 ^ 25) ^ 2 ∧
      dist_sq pq.1 pq.2 ≠ (5764607523034235 / 2 ^ 55) ^ 2) := by
  refine ⟨?_, ?_, ?_, ?_, ?_, ?_⟩ <;> decide!

/-- C5 (amended): for every marker side length `size_m` whose half is within
the range of `float`, the 4 object points built for the pose solve are, in
order, (-f, f, 0), (f, f, 0), (f, -f, 0), (-f, -f, 0) with f the `float`
nearest to size_m / 2.  All lie in the plane z = 0, their centroid is the
origin, and each pair of cyclically consecutive points has squared distance
(2 f) ^ 2, so (f being non-negative) distance exactly 2 f: the corners of a
square of side 2 f centred at the origin, in the top-left, top-right,
bottom-right, bottom-left order.  The side 2 f is size_m only when a `float`
holds size_m / 2. -/
theorem object_points_square (size_m : FP) (f : ℚ)
    (hf : cast_float (dmul size_m (FP.fin (1 / 2))) = FP.fin f) :
    object_points size_m =
      [{ x := FP.fin (-f), y := FP.fin f, z := FP.fin 0 },
       { x := FP.fin f, y := FP.fin f, z := FP.fin 0 },
       { x := FP.fin f, y := FP.fin (-f), z := FP.fin 0 },
       { x := FP.fin (-f), y := FP.fin (-f), z := FP.fin 0 }] ∧
    finite_points (object_points size_m) = some (square_corners f) ∧
    (∀ p ∈ square_corners f, p.z = 0) ∧
    centroid (square_corners f) = { x := 0, y := 0, z := 0 } ∧
    (cyclic_pairs (square_corners f)).length = 4 ∧
    (∀ pq ∈ cyclic_pairs (square_corners f), dist_sq pq.1 pq.2 = (2 * f) ^ 2) ∧
    (0 ≤ f → ∀ pq ∈ cyclic_pairs (square_corners f),
      Real.sqrt ((dist_sq pq.1 pq.2 : ℚ) : ℝ) = ((2 * f : ℚ) : ℝ)) := by
  have hneg : cast_float (dneg (dmul size_m (FP.fin (1 / 2)))) = FP.fin (-f) := by
    rw [cast_float_dneg, hf]
    rfl
  have hpts : object_points size_m =
      [{ x := FP.fin (-f), y := FP.fin f, z := FP.fin 0 },
       { x := FP.fin f, y := FP.fin f, z := FP.fin 0 },
       { x := FP.fin f, y := FP.fin (-f), z := FP.fin 0 },
       { x := FP.fin (-f), y := FP.fin (-f), z := FP.fin 0 }] := by
    simp only [object_points, hf, hneg]
  have hd : ∀ pq ∈ cyclic_pairs (square_corners f), dist_sq pq.1 pq.2 = (2 * f) ^ 2 := by
    intro pq hpq
    simp only [cyclic_pairs, square_corners, List.tail_cons, List.take, List.cons_append,
      List.nil_append, List.zip_cons_cons, List.zip_nil_right, List.mem_cons,
      List.mem_singleton, List.not_mem_nil, or_false] at hpq
    rcases hpq with h | h | h | h <;> subst h <;> simp only [dist_sq] <;> ring
  refine ⟨hpts, ?_, ?_, ?_, ?_, hd, ?_⟩
  · rw [hpts]
    rfl
  · intro p hp
    simp only [square_corners, List.mem_cons, List.mem_singleton, List.not_mem_nil,
      or_false] at hp
    rcases hp with h | h | h | h <;> subst h <;> rfl
  · simp [centroid, square_corners]
  · rfl
  · intro hs pq hpq
    rw [hd pq hpq]
    push_cast
    exact Real.sqrt_sq (by positivity)

/-- C5 (amended) at side length 1/4, whose half a `float` holds: the
consecutive corners are exactly 1/4 apart. -/
theorem object_points_square_witness :
    finite_points (object_points (FP.fin (1 / 4))) = some (square_corners (1 / 8)) ∧
    ∀ pq ∈ cyclic_pairs (square_corners (1 / 8)),
      Real.sqrt ((dist_sq pq.1 pq.2 : ℚ) : ℝ) = ((2 * (1 / 8) : ℚ) : ℝ) :=
  ⟨(object_points_square (FP.fin (1 / 4)) (1 / 8) (by decide!)).2.1,
   (object_points_square (FP.fin (1 / 4)) (1 / 8) (by decide!)).2.2.2.2.2.2 (by norm_num)⟩

/-! ## C7 -/

/-- C7: startup refusal.  Whenever the configuration file cannot be loaded
(it does not open, so that `load_config_yaml` returns false), or the
calibration is unavailable (the camera matrix or the distortion coefficients
read from the intrinsics file are empty), `main` returns 1 without entering the
frame loop and without publishing any Detection, whatever frames are waiting
on the pipe. -/
theorem startup_refusal (x : Env) (argv : List String) (reads : List FrameRead) :
    (x.open_yaml (cfg_path_of argv) = none →
      load_config_yaml x.stoi (x.open_yaml (cfg_path_of argv)) ArucoConfig.default =
        some (false, ArucoConfig.default)) ∧
    (∀ cfg, load_config_yaml x.stoi (x.open_yaml (cfg_path_of argv)) ArucoConfig.default =
        some (false, cfg) →
      (main x argv reads).exit_code = some 1 ∧
      (main x argv reads).entered_loop = false ∧
      published (main x argv reads).events = []) ∧
    (∀ cfg, load_config_yaml x.stoi (x.open_yaml (cfg_path_of argv)) ArucoConfig.default =
        some (true, cfg) →
      (mat_empty (x.read_intrinsics cfg.intrinsics).1 = true ∨
        mat_empty (x.read_intrinsics cfg.intrinsics).2 = true) →
      (main x argv reads).exit_code = some 1 ∧
      (main x argv reads).entered_loop = false ∧
      published (main x argv reads).events = []) := by
  refine ⟨?_, ?_, ?_⟩
  · intro h
    rw [h]
    rfl
  · intro cfg h
    simp only [main, h]
    exact ⟨trivial, trivial, rfl⟩
  · intro cfg h hempty
    have hor : (mat_empty (x.read_intrinsics cfg.intrinsics).1 ||
        mat_empty (x.read_intrinsics cfg.intrinsics).2) = true := by
      rcases hempty with h1 | h2
      · rw [h1]; rfl
      · rw [h2]; simp
    simp only [main, h, hor, if_true]
    exact ⟨trivial, trivial, rfl⟩

/-- C7 at concrete inputs: a configuration path that does not open, and a
configuration whose intrinsics file yields empty matrices, both with a good
frame waiting on the pipe. -/
theorem startup_refusal_witness :
    ((main demo_env ["prog", "/etc/missing.yaml"] [demo_read]).exit_code = some 1 ∧
      (main demo_env ["prog", "/etc/missing.yaml"] [demo_read]).entered_loop = false ∧
      published (main demo_env ["prog", "/etc/missing.yaml"] [demo_read]).events = []) ∧
    ((main demo_env ["prog", "/etc/nocal.yaml"] [demo_read]).exit_code = some 1 ∧
      (main demo_env ["prog", "/etc/nocal.yaml"] [demo_read]).entered_loop = false ∧
      published (main demo_env ["prog", "/etc/nocal.yaml"] [demo_read]).events = []) :=
  ⟨(startup_refusal demo_env ["prog", "/etc/missing.yaml"] [demo_read]).2.1
      ArucoConfig.default
      ((startup_refusal demo_env ["prog", "/etc/missing.yaml"] [demo_read]).1
        (by decide)),
   (startup_refusal demo_env ["prog", "/etc/nocal.yaml"] [demo_read]).2.2
      { demo_cfg with intrinsics := "/data/none.yml" }
      (by decide!) (Or.inl (by decide))⟩

/-! ## C8 -/

/-- A pass on an unusable frame reaches the next pass and writes no record. -/
theorem frame_iteration_unusable (x : Env) (cfg : ArucoConfig) (K D : Mat)
    (dict : PREDEFINED_DICTIONARY_NAME) (params : DetectorParameters) (r : FrameRead)
    (h : frame_unusable x cfg r) :
    (frame_iteration x cfg K D dict params r).1 = LoopCtl.next ∧
    published (frame_iteration x cfg K D dict params r).2 = [] := by
  unfold frame_iteration
  by_cases h1 : r.meta_ret ≠ x.sizeof_meta
  · rw [if_pos h1]
    exact ⟨rfl, rfl⟩
  · by_cases h2 : r.payload_ret ≠ (r.meta.size_bytes : Int)
    · rw [if_neg h1, if_pos h2]
      exact ⟨rfl, rfl⟩
    · rw [if_neg h1, if_neg h2]
      rcases h with h | h | ⟨hg, hn⟩
      · exact absurd h h1
      · exact absurd h h2
      · have : to_gray cfg r = Gray.unsupported := by
          simp only [to_gray, hg, hn, if_false]
        rw [this]
        exact ⟨rfl, rfl⟩

/-- The loop with an unusable frame inserted: it ends the same way and
publishes the same records. -/
theorem frame_loop_insert_unusable (x : Env) (cfg : ArucoConfig) (K D : Mat)
    (dict : PREDEFINED_DICTIONARY_NAME) (params : DetectorParameters) (r : FrameRead)
    (h : frame_unusable x cfg r) (before after : List FrameRead) :
    (frame_loop x cfg K D dict params (before ++ r :: after)).1 =
      (frame_loop x cfg K D dict params (before ++ after)).1 ∧
    published (frame_loop x cfg K D dict params (before ++ r :: after)).2 =
      published (frame_loop x cfg K D dict params (before ++ after)).2 := by
  induction before with
  | nil =>
    obtain ⟨hn, hp⟩ := frame_iteration_unusable x cfg K D dict params r h
    rcases hr : frame_iteration x cfg K D dict params r with ⟨ctl, evs⟩
    rw [hr] at hn hp
    simp only at hn hp
    subst hn
    rw [List.nil_append, List.nil_append,
      frame_loop_cons_next x cfg K D dict params r after evs hr]
    simp only [published_append, hp, List.nil_append, and_self]
  | cons b rest ih =>
    rcases hb : frame_iteration x cfg K D dict params b with ⟨ctl, evs⟩
    by_cases hctl : ctl = LoopCtl.next
    · subst hctl
      rw [List.cons_append, List.cons_append,
        frame_loop_cons_next x cfg K D dict params b _ evs hb,
        frame_loop_cons_next x cfg K D dict params b _ evs hb]
      simp only [published_append, ih.1, ih.2, and_self]
    · rw [List.cons_append, List.cons_append,
        frame_loop_cons_stop x cfg K D dict params b _ ctl evs hb hctl,
        frame_loop_cons_stop x cfg K D dict params b _ ctl evs hb hctl]
      exact ⟨rfl, rfl⟩

/-- C8: non-fatal frame skip.  A pass of the loop on a frame that cannot be
used (short metadata read, short payload read, or an `image_format` that is
neither `gray8` nor `nv12`) publishes no Detection and ends by reaching the
next pass; in a run of the loop the frames after it are processed as if the
unusable frame had not been there, so none of these conditions ends the loop:
the run ends as the run without the frame ends and publishes the same records,
which, when the passes before the frame reach it, are the records of the
passes before it followed by the records of the passes after it. -/
theorem unusable_frame_skipped (x : Env) (cfg : ArucoConfig) (K D : Mat)
    (dict : PREDEFINED_DICTIONARY_NAME) (params : DetectorParameters) (r : FrameRead)
    (h : frame_unusable x cfg r) :
    (frame_iteration x cfg K D dict params r).1 = LoopCtl.next ∧
    published (frame_iteration x cfg K D dict params r).2 = [] ∧
    (∀ before after : List FrameRead,
      (frame_loop x cfg K D dict params (before ++ r :: after)).1 =
        (frame_loop x cfg K D dict params (before ++ after)).1 ∧
      published (frame_loop x cfg K D dict params (before ++ r :: after)).2 =
        published (frame_loop x cfg K D dict params (before ++ after)).2) ∧
    (∀ before after : List FrameRead,
      (frame_loop x cfg K D dict params before).1 = LoopCtl.next →
      published (frame_loop x cfg K D dict params (before ++ r :: after)).2 =
        published (frame_loop x cfg K D dict params before).2 ++
          published (frame_loop x cfg K D dict params after).2) := by
  refine ⟨(frame_iteration_unusable x cfg K D dict params r h).1,
    (frame_iteration_unusable x cfg K D dict params r h).2,
    frame_loop_insert_unusable x cfg K D dict params r h, ?_⟩
  intro before after hb
  rw [(frame_loop_insert_unusable x cfg K D dict params r h before after).2,
    frame_loop_append x cfg K D dict params before after hb]
  simp only [published_append]

/-- C8 at concrete inputs: a short metadata read, a short payload read and an
unsupported format each publish nothing, and the good frame that follows is
processed: its two records are published. -/
theorem unusable_frame_skipped_witness :
    (published (frame_loop demo_env demo_cfg demo_K demo_D DICT_4X4_50
        (detector_params demo_cfg) ([] ++ short_read :: [demo_read])).2).map
          (fun d => d.id) = [7, 3] ∧
    (published (frame_loop demo_env demo_cfg demo_K demo_D DICT_4X4_50
        (detector_params demo_cfg) ([] ++ short_payload :: [demo_read])).2).map
          (fun d => d.id) = [7, 3] ∧
    published (frame_iteration demo_env { demo_cfg with image_format := "rgb" } demo_K demo_D
        DICT_4X4_50 (detector_params demo_cfg) demo_read).2 = [] := by
  refine ⟨?_, ?_, ?_⟩
  · rw [(unusable_frame_skipped demo_env demo_cfg demo_K demo_D DICT_4X4_50
      (detector_params demo_cfg) short_read (Or.inl (by decide))).2.2.2 [] [demo_read]
      (by decide)]
    decide
  · rw [(unusable_frame_skipped demo_env demo_cfg demo_K demo_D DICT_4X4_50
      (detector_params demo_cfg) short_payload (Or.inr (Or.inl (by decide)))).2.2.2 []
      [demo_read] (by decide)]
    decide
  · exact (unusable_frame_skipped demo_env { demo_cfg with image_format := "rgb" } demo_K
      demo_D DICT_4X4_50 (detector_params demo_cfg) demo_read
      (Or.inr (Or.inr ⟨by decide, by decide⟩))).2.1

/-! ## C9 -/

end ArucoDetector
